import Mathlib

/-!
# ddns-gandi: a shallow embedding of `main.go`

The program reads, for every configured subdomain, the record set published at
the DNS provider, asks an external resolver for the machine's public address
and, when the two differ, replaces the record set with a PUT.

The embedding keeps the structure of the Go source:

* a Go `string` / `[]byte` is a list of bytes (`GoString`);
* the network is a state machine `World σ`: `client.Do` followed by
  `io.ReadAll` and `http.Get` followed by `io.ReadAll` each map a state to a
  reply (`none` when either step reports an error) and a successor state;
* a function of the program is a `Prog σ α`: it maps a world state to an
  outcome (returned value, `log.Fatalln`, or run-time panic), the successor
  state and the list of events (requests with their replies, log lines) it
  produced, in order;
* two pure library functions whose full behaviour is outside the
  repository are parameters (`Lib`): the parsing of a URL inside
  `http.NewRequest`, and `json.Unmarshal` into a `Record`;
* `json.Marshal` on `PutData` is modelled concretely, with the string
  encoder of `encoding/json` (HTML-escaping on, as `json.Marshal` has it).
-/

namespace DdnsGandi

/-! ## Data model -/

abbrev Byte := UInt8

/-- A Go `string` or `[]byte`: a finite sequence of bytes. -/
abbrev GoString := List Byte

/-- The bytes of a source-code string literal (its UTF-8 encoding). -/
def str (s : String) : GoString := s.toUTF8.data.toList

/-- `type Config struct` (main.go:15). -/
structure Config where
  URL : GoString
  IP_RESOLVER_URL : GoString
  DOMAIN : GoString
  API_KEY : GoString
  SUBDOMAINS : List GoString
  deriving DecidableEq

/-- One element of `type Record []struct` (main.go:23). -/
structure RecordEntry where
  RrsetName : GoString
  RrsetType : GoString
  RrsetTTL : Int
  RrsetValues : List GoString
  RrsetHref : GoString
  deriving DecidableEq

/-- `type Record []struct{...}` (main.go:23). -/
abbrev Record := List RecordEntry

/-- `type PutRecord struct` (main.go:31). -/
structure PutRecord where
  RrsetType : GoString
  RrsetValues : List GoString
  deriving DecidableEq

/-- `type PutData struct` (main.go:36). -/
structure PutData where
  Items : List PutRecord
  deriving DecidableEq

/-- The part of `*http.Request` the program sets: the method, the URL the
request carries (as `URL.String()` prints it), the header fields in the order
of the `Header.Add` calls, and the body (`none` for a nil body). -/
structure Request where
  Method : GoString
  URL : GoString
  Header : List (GoString × GoString)
  Body : Option GoString
  deriving DecidableEq

/-- The part of `*http.Response` the program reads: the status code and the
bytes `io.ReadAll` returns for the body. -/
structure Response where
  StatusCode : Int
  Body : GoString
  deriving DecidableEq

/-- How a call ends: it returns a value, it ends the process through
`log.Fatalln` (exit status 1), or it ends the process through a run-time
panic (index or slice bound out of range). -/
inductive Outcome (α : Type) where
  | ret (a : α)
  | fatal
  | panic
  deriving DecidableEq

/-- What the program does to the outside, in order of occurrence. -/
inductive Event where
  /-- `client.Do(req)` and the reading of the reply. -/
  | clientDo (req : Request) (reply : Option Response)
  /-- `http.Get(url)` and the reading of the reply. -/
  | httpGet (url : GoString) (reply : Option Response)
  /-- `log.Println(msg)`. -/
  | logPrintln (msg : GoString)
  deriving DecidableEq

/-- The network as seen by the program. `clientDo s req` is the reply to
`client.Do(req)` read with `io.ReadAll` in state `s` (`none`: one of the two
reported an error), with the state that follows; `httpGet` is the same for
`http.Get(url)`. -/
structure World (σ : Type) where
  clientDo : σ → Request → Option Response × σ
  httpGet : σ → GoString → Option Response × σ

/-- Pure library functions taken as parameters. `parseURL rawURL` is what
`http.NewRequest` makes of its URL argument: `none` when `url.Parse` reports
an error, otherwise the URL the request then carries, written the way
`URL.String()` prints it (so a space in the path reads `%20`).
`jsonUnmarshal body` is the result of `json.Unmarshal(body, &result)` for
`result` of type `Record` (`none`: an error is returned). -/
structure Lib where
  parseURL : GoString → Option GoString
  jsonUnmarshal : GoString → Option Record

/-- Result of running a piece of the program from a world state. -/
structure Result (σ α : Type) where
  out : Outcome α
  world : σ
  events : List Event
  deriving DecidableEq

/-- A piece of the program: a function of the world state. -/
abbrev Prog (σ α : Type) := σ → Result σ α

/-- Return a value without touching the world. -/
def Prog.pure {σ α : Type} (a : α) : Prog σ α := fun s => ⟨.ret a, s, []⟩

/-- A pure computation that may end the process. -/
def Prog.lift {σ α : Type} (o : Outcome α) : Prog σ α := fun s => ⟨o, s, []⟩

/-- Sequencing: run `m`; if it returns, run `f` on its value in the state it
left; `log.Fatalln` and panics end the run where they happen. -/
def Prog.bind {σ α β : Type} (m : Prog σ α) (f : α → Prog σ β) : Prog σ β := fun s =>
  let r := m s
  match r.out with
  | .ret a =>
    let r2 := f a r.world
    ⟨r2.out, r2.world, r.events ++ r2.events⟩
  | .fatal => ⟨.fatal, r.world, r.events⟩
  | .panic => ⟨.panic, r.world, r.events⟩

/-- `log.Println(msg)`. -/
def logPrintln {σ : Type} (msg : GoString) : Prog σ Unit := fun s =>
  ⟨.ret (), s, [.logPrintln msg]⟩

/-- Index expression `xs[i]`: a run-time panic when `i` is out of range. -/
def index {α : Type} (xs : List α) (i : Nat) : Outcome α :=
  match xs[i]? with
  | some x => .ret x
  | none => .panic

/-- Slice expression `b[:hi]` on a byte slice: the first `hi` bytes, and a
run-time panic when `hi` is negative. The bound is checked against the
length; the program only ever asks for `hi = len(b) - 1`. -/
def sliceTo (b : GoString) (hi : Int) : Outcome GoString :=
  if 0 ≤ hi ∧ hi ≤ (b.length : Int) then .ret (b.take hi.toNat) else .panic

/-! ## `encoding/json`: marshalling of `PutData` -/

/-- `const hex = "0123456789abcdef"` of encoding/json, indexed. -/
def hex (n : Nat) : Byte := (str "0123456789abcdef").getD n 0

/-- `htmlSafeSet` of encoding/json: the ASCII bytes that are written
unescaped: those from space to DEL except the double quote, the ampersand,
the angle brackets and the backslash. -/
def htmlSafeSet (b : Byte) : Bool :=
  decide (0x20 ≤ b.toNat) && decide (b.toNat < 0x80) &&
    !(b == 0x22 || b == 0x26 || b == 0x3c || b == 0x3e || b == 0x5c)

/-- `utf8.RuneError`. -/
def RuneError : Nat := 0xFFFD

/-- The body of `utf8.DecodeRuneInString` on a string of `n ≥ 1` bytes whose
first four bytes are `s0`, `s1`, `s2`, `s3` (a byte beyond the end is never
looked at: the length is tested first): the rune and its width,
`(RuneError, 1)` for an invalid or incomplete encoding. -/
def decodeRune (n s0 s1 s2 s3 : Nat) : Nat × Nat :=
  if s0 < 0x80 then (s0, 1)
  else if s0 < 0xC2 ∨ 0xF4 < s0 then (RuneError, 1)
  else
    -- width and the accepted range of the second byte (`first`, `acceptRanges`)
    let sz : Nat := if s0 < 0xE0 then 2 else if s0 < 0xF0 then 3 else 4
    let lo : Nat := if s0 = 0xE0 then 0xA0 else if s0 = 0xF0 then 0x90 else 0x80
    let hi : Nat := if s0 = 0xED then 0x9F else if s0 = 0xF4 then 0x8F else 0xBF
    if n < sz then (RuneError, 1)
    else if s1 < lo ∨ hi < s1 then (RuneError, 1)
    else if sz ≤ 2 then ((s0 % 0x20) * 0x40 + s1 % 0x40, 2)
    else if s2 < 0x80 ∨ 0xBF < s2 then (RuneError, 1)
    else if sz ≤ 3 then ((s0 % 0x10) * 0x1000 + (s1 % 0x40) * 0x40 + s2 % 0x40, 3)
    else if s3 < 0x80 ∨ 0xBF < s3 then (RuneError, 1)
    else ((s0 % 0x08) * 0x40000 + (s1 % 0x40) * 0x1000 + (s2 % 0x40) * 0x40 + s3 % 0x40, 4)

/-- `utf8.DecodeRuneInString`: the first rune of `s` and its width in bytes;
`(RuneError, 1)` for an invalid or incomplete encoding, `(RuneError, 0)` for
the empty string. -/
def DecodeRuneInString (s : GoString) : Nat × Nat :=
  match s with
  | [] => (RuneError, 0)
  | b0 :: t =>
    decodeRune s.length b0.toNat (t.getD 0 0).toNat (t.getD 1 0).toNat (t.getD 2 0).toNat

/-- The escape written for an ASCII byte outside `htmlSafeSet` (the
`switch b` of `appendString`). Backspace and form feed have the short escapes
that encoding/json writes since Go 1.22; earlier releases wrote them as
`\u0008` and `\u000c`. -/
def escapeByte (b : Byte) : GoString :=
  if b = 0x5c ∨ b = 0x22 then [0x5c, b]
  else if b = 0x08 then str "\\b"
  else if b = 0x0c then str "\\f"
  else if b = 0x0a then str "\\n"
  else if b = 0x0d then str "\\r"
  else if b = 0x09 then str "\\t"
  else str "\\u00" ++ [hex (b.toNat / 16), hex (b.toNat % 16)]

/-- The loop of the string encoder `json.Marshal` uses (HTML escaping on),
one iteration per unit of fuel; every iteration consumes at least one byte,
so `len(src)` units are enough. A byte that is not part of valid UTF-8 is
replaced by U+FFFD, written as its three bytes EF BF BD: this is what the
encoder of current Go releases does; the encoder of earlier releases (still
selectable with `GOEXPERIMENT=nojsonv2`) wrote the six characters of the
escape of U+FFFD instead. -/
def appendStringLoop : Nat → GoString → GoString
  | 0, _ => []
  | _, [] => []
  | fuel + 1, b :: rest =>
    if b.toNat < 0x80 then
      if htmlSafeSet b then b :: appendStringLoop fuel rest
      else escapeByte b ++ appendStringLoop fuel rest
    else
      let d := DecodeRuneInString (b :: rest)
      if d.1 = RuneError ∧ d.2 = 1 then
        [0xEF, 0xBF, 0xBD] ++ appendStringLoop fuel rest
      else if d.1 = 0x2028 ∨ d.1 = 0x2029 then
        str "\\u202" ++ [hex (d.1 % 16)] ++ appendStringLoop fuel ((b :: rest).drop d.2)
      else
        (b :: rest).take d.2 ++ appendStringLoop fuel ((b :: rest).drop d.2)

/-- What the string encoder writes between the two quotes. -/
def escapeString (src : GoString) : GoString :=
  appendStringLoop src.length src

/-- The string encoder of `json.Marshal` on `src`: `src` as a JSON string
literal. -/
def appendString (src : GoString) : GoString :=
  [0x22] ++ escapeString src ++ [0x22]

/-- Elements of a JSON array, separated by commas. -/
def joinComma : List GoString → GoString
  | [] => []
  | [x] => x
  | x :: y :: rest => x ++ str "," ++ joinComma (y :: rest)

/-- `json.Marshal` of a `PutRecord`: the fields in declaration order under
their `json` tags. -/
def marshalPutRecord (r : PutRecord) : GoString :=
  str "\x7b\"rrset_type\":" ++ appendString r.RrsetType ++
    str ",\"rrset_values\":[" ++ joinComma (r.RrsetValues.map appendString) ++ str "]\x7d"

/-- `json.Marshal(putData)` for `putData *PutData` with non-nil slices; the
error result is never set for this type. -/
def jsonMarshal (d : PutData) : Option GoString :=
  some (str "\x7b\"items\":[" ++ joinComma (d.Items.map marshalPutRecord) ++ str "]\x7d")

/-! ## The program -/

/-- `checkCurrentIP` (main.go:58). -/
def checkCurrentIP {σ : Type} (W : World σ) (c : Config) (currentIP : GoString) :
    Prog σ (Bool × GoString) := fun s =>
  match W.httpGet s c.IP_RESOLVER_URL with
  | (none, s1) => ⟨.fatal, s1, [.httpGet c.IP_RESOLVER_URL none]⟩
  | (some res, s1) =>
    match sliceTo res.Body ((res.Body.length : Int) - 1) with
    | .ret ipAddress =>
      ⟨.ret (decide (ipAddress = currentIP), ipAddress), s1,
        [.httpGet c.IP_RESOLVER_URL (some res)]⟩
    | .fatal => ⟨.fatal, s1, [.httpGet c.IP_RESOLVER_URL (some res)]⟩
    | .panic => ⟨.panic, s1, [.httpGet c.IP_RESOLVER_URL (some res)]⟩

/-- `httpguts.IsTokenRune` on a byte: the ASCII letters and digits and the
fifteen marks HTTP allows in a token. -/
def isTokenByte (b : Byte) : Bool :=
  (decide (0x30 ≤ b.toNat) && decide (b.toNat ≤ 0x39)) ||
  (decide (0x41 ≤ b.toNat) && decide (b.toNat ≤ 0x5a)) ||
  (decide (0x61 ≤ b.toNat) && decide (b.toNat ≤ 0x7a)) ||
  decide (b ∈ [0x21, 0x23, 0x24, 0x25, 0x26, 0x27, 0x2a, 0x2b, 0x2d, 0x2e, 0x5e, 0x5f, 0x60,
    0x7c, 0x7e])

/-- `validMethod` of net/http: not empty and made of token characters. -/
def validMethod (method : GoString) : Bool :=
  !method.isEmpty && method.all isTokenByte

/-- `http.NewRequest(method, url, nil)`: an empty method stands for GET, an
invalid method or a URL that does not parse is an error (`none`), and the
request carries the parsed URL, no header and no body. -/
def httpNewRequest (L : Lib) (method url : GoString) : Option Request :=
  let method := if method = [] then str "GET" else method
  if validMethod method then
    match L.parseURL url with
    | some u => some { Method := method, URL := u, Header := [], Body := none }
    | none => none
  else none

/-- `NewAPIRequest` (main.go:74). -/
def NewAPIRequest (L : Lib) (c : Config) (method url : GoString) : Outcome Request :=
  match httpNewRequest L method url with
  | some req =>
    .ret { req with
           Header := req.Header ++ [(str "Authorization", str "Apikey " ++ c.API_KEY)] }
  | none => .fatal

/-- `NewAPIRequestWithBody` (main.go:83). -/
def NewAPIRequestWithBody (L : Lib) (c : Config) (method url body : GoString) :
    Outcome Request :=
  match NewAPIRequest L c method url with
  | .ret req =>
    .ret { req with
           Header := req.Header ++ [(str "Content-Type", str "application/json; charset=UTF-8")],
           Body := some body }
  | .fatal => .fatal
  | .panic => .panic

/-- `callAPI` (main.go:92): the body and the status code of the reply. -/
def callAPI {σ : Type} (W : World σ) (req : Request) : Prog σ (GoString × Int) := fun s =>
  match W.clientDo s req with
  | (none, s1) => ⟨.fatal, s1, [.clientDo req none]⟩
  | (some res, s1) => ⟨.ret (res.Body, res.StatusCode), s1, [.clientDo req (some res)]⟩

/-- How one iteration of the loop of `updateRecords` ends: it goes on to the
next subdomain, or `updateRecords` returns. -/
inductive Flow where
  | next
  | returned (b : Bool)
  deriving DecidableEq

/-- `json.Unmarshal(resBody, &result)` followed by the `log.Fatalln` on error. -/
def unmarshalOrFatal (L : Lib) (resBody : GoString) : Outcome Record :=
  match L.jsonUnmarshal resBody with
  | some result => .ret result
  | none => .fatal

/-- `json.Marshal(putData)` followed by the `log.Fatalln` on error. -/
def marshalOrFatal (d : PutData) : Outcome GoString :=
  match jsonMarshal d with
  | some b => .ret b
  | none => .fatal

/-- The body of the `for` loop of `updateRecords` (main.go:110-135) for one
subdomain. -/
def updateRecordsBody {σ : Type} (W : World σ) (L : Lib) (c : Config) (url : GoString)
    (subdomain : GoString) : Prog σ Flow :=
  let currentUrl := url ++ str "/" ++ subdomain
  Prog.bind (Prog.lift (NewAPIRequest L c (str "GET") currentUrl)) fun getReq =>
  Prog.bind (callAPI W getReq) fun got =>
  Prog.bind (Prog.lift (unmarshalOrFatal L got.1)) fun result =>
  Prog.bind (Prog.lift (index result 0)) fun entry =>
  Prog.bind (Prog.lift (index entry.RrsetValues 0)) fun published =>
  Prog.bind (checkCurrentIP W c published) fun chk =>
  if chk.1 then
    Prog.bind (logPrintln (subdomain ++ str " \t[OK]")) fun _ => Prog.pure Flow.next
  else
    let putRecord : PutRecord := { RrsetType := str "A", RrsetValues := [chk.2] }
    let putData : PutData := { Items := [putRecord] }
    Prog.bind (Prog.lift (marshalOrFatal putData)) fun jsonRecord =>
    Prog.bind (Prog.lift (NewAPIRequestWithBody L c (str "PUT") currentUrl jsonRecord))
      fun putReq =>
    Prog.bind (callAPI W putReq) fun put =>
    if put.2 ≠ 201 then Prog.pure (Flow.returned false)
    else
      Prog.bind (logPrintln (subdomain ++ str " \t[UPDATED]")) fun _ => Prog.pure Flow.next

/-- The `for _, subdomain := range c.SUBDOMAINS` loop of `updateRecords`
with the `return true` that follows it. -/
def updateRecordsLoop {σ : Type} (W : World σ) (L : Lib) (c : Config) (url : GoString) :
    List GoString → Prog σ Bool
  | [] => Prog.pure true
  | subdomain :: rest =>
    Prog.bind (updateRecordsBody W L c url subdomain) fun f =>
      match f with
      | Flow.next => updateRecordsLoop W L c url rest
      | Flow.returned b => Prog.pure b

/-- `updateRecords` (main.go:108). -/
def updateRecords {σ : Type} (W : World σ) (L : Lib) (c : Config) (url : GoString) :
    Prog σ Bool :=
  updateRecordsLoop W L c url c.SUBDOMAINS

/-! ## Vocabulary of the statements -/

/-- The request the specification describes for reading: GET on the URL `u`
with the `Authorization` header and no body. -/
def readRequest (c : Config) (u : GoString) : Request :=
  { Method := str "GET", URL := u,
    Header := [(str "Authorization", str "Apikey " ++ c.API_KEY)],
    Body := none }

/-- The request the specification describes for writing: PUT on the URL `u`
with the `Authorization` and `Content-Type` headers and the given body. -/
def writeRequest (c : Config) (u body : GoString) : Request :=
  { Method := str "PUT", URL := u,
    Header := [(str "Authorization", str "Apikey " ++ c.API_KEY),
               (str "Content-Type", str "application/json; charset=UTF-8")],
    Body := some body }

/-- The text the specification gives for the body of a write, with the
address spliced in between the quotes as it is. -/
def literalPutBody (ip : GoString) : GoString :=
  str "\x7b\"items\":[\x7b\"rrset_type\":\"A\",\"rrset_values\":[\"" ++ ip ++ str "\"]\x7d]\x7d"

/-- The body of a write as `json.Marshal` produces it: the address as a JSON
string literal. -/
def putBody (ip : GoString) : GoString :=
  str "\x7b\"items\":[\x7b\"rrset_type\":\"A\",\"rrset_values\":[" ++ appendString ip ++ str "]\x7d]\x7d"

/-- An event is a PUT sent to the provider. -/
def Event.isPut : Event → Bool
  | .clientDo req _ => decide (req.Method = str "PUT")
  | _ => false

/-- An event is a PUT sent to the provider that was answered with a status
other than 201. -/
def Event.isRejectedPut : Event → Bool
  | .clientDo req (some res) => decide (req.Method = str "PUT") && decide (res.StatusCode ≠ 201)
  | _ => false

/-- An event is a call of the resolver. -/
def Event.isResolverCall : Event → Bool
  | .httpGet _ _ => true
  | _ => false

/-- The first value of the first entry of a record set, when there is one. -/
def firstValue (r : Record) : Option GoString :=
  match r with
  | [] => none
  | e :: _ => e.RrsetValues.head?

/-- What the program asks of the outside: an event without the reply. -/
inductive Action where
  | clientDo (req : Request)
  | httpGet (url : GoString)
  | logPrintln (msg : GoString)
  deriving DecidableEq

/-- The request or log line of an event. -/
def Event.action : Event → Action
  | .clientDo req _ => .clientDo req
  | .httpGet url _ => .httpGet url
  | .logPrintln msg => .logPrintln msg

/-- Two reply bodies agree on the first published value: they are equal, or
both decode to record sets with the same first value of the first entry. -/
def sameFirstValue (L : Lib) (b1 b2 : GoString) : Prop :=
  b1 = b2 ∨ ∃ r1 r2, L.jsonUnmarshal b1 = some r1 ∧ L.jsonUnmarshal b2 = some r2 ∧
    firstValue r1 = firstValue r2

/-- Two replies of the provider differ at most in the parts of the record
set other than the first value of the first entry. -/
def sameReply (L : Lib) : Option Response → Option Response → Prop
  | none, none => True
  | some a, some b => a.StatusCode = b.StatusCode ∧ sameFirstValue L a.Body b.Body
  | _, _ => False

/-- Two outcomes are of the same kind, with returned values related by `Q`. -/
def OutRel {α : Type} (Q : α → α → Prop) : Outcome α → Outcome α → Prop
  | .ret a, .ret b => Q a b
  | .fatal, .fatal => True
  | .panic, .panic => True
  | _, _ => False

/-- Two pieces of program, run from related states, end in the same way with
related values, ask the same of the outside, and leave related states. -/
def Sim {σ₁ σ₂ α : Type} (R : σ₁ → σ₂ → Prop) (Q : α → α → Prop)
    (m₁ : Prog σ₁ α) (m₂ : Prog σ₂ α) : Prop :=
  ∀ s₁ s₂, R s₁ s₂ →
    OutRel Q (m₁ s₁).out (m₂ s₂).out ∧ R (m₁ s₁).world (m₂ s₂).world ∧
      (m₁ s₁).events.map Event.action = (m₂ s₂).events.map Event.action

/-! ## The provider's side of a write -/

/-- `utf8.Valid`, one rune per unit of fuel: no position decodes to
`(RuneError, 1)`. -/
def validLoop : Nat → GoString → Bool
  | 0, s => s.isEmpty
  | _, [] => true
  | fuel + 1, b :: rest =>
    if b.toNat < 0x80 then validLoop fuel rest
    else
      let d := DecodeRuneInString (b :: rest)
      if d.1 = RuneError ∧ d.2 = 1 then false
      else validLoop fuel ((b :: rest).drop d.2)

/-- The byte string is valid UTF-8 (`utf8.Valid`). -/
def validUTF8 (s : GoString) : Bool := validLoop s.length s

/-- The value of a hexadecimal digit. -/
def hexValue (b : Byte) : Option Nat :=
  if 0x30 ≤ b.toNat ∧ b.toNat ≤ 0x39 then some (b.toNat - 0x30)
  else if 0x61 ≤ b.toNat ∧ b.toNat ≤ 0x66 then some (b.toNat - 0x61 + 10)
  else if 0x41 ≤ b.toNat ∧ b.toNat ≤ 0x46 then some (b.toNat - 0x41 + 10)
  else none

/-- The UTF-8 encoding of a code point of the basic plane that is not a
surrogate; `none` for the others. -/
def encodeRune (r : Nat) : Option GoString :=
  if r < 0x80 then some [UInt8.ofNat r]
  else if r < 0x800 then some [UInt8.ofNat (0xC0 + r / 0x40), UInt8.ofNat (0x80 + r % 0x40)]
  else if 0xD800 ≤ r ∧ r ≤ 0xDFFF then none
  else if r < 0x10000 then
    some [UInt8.ofNat (0xE0 + r / 0x1000), UInt8.ofNat (0x80 + r / 0x40 % 0x40),
      UInt8.ofNat (0x80 + r % 0x40)]
  else none

/-- The byte a two-character escape stands for (RFC 8259, section 7). -/
def simpleEscape (c : Byte) : Option Byte :=
  if c = 0x22 then some 0x22
  else if c = 0x5c then some 0x5c
  else if c = 0x2f then some 0x2f
  else if c = 0x62 then some 0x08
  else if c = 0x66 then some 0x0c
  else if c = 0x6e then some 0x0a
  else if c = 0x72 then some 0x0d
  else if c = 0x74 then some 0x09
  else none

/-- Reading a JSON string after its opening quote (RFC 8259, section 7): the
value up to the closing quote, and what follows that quote. Escapes are
read; every other byte is taken as it is. `none` when the string is not
closed or an escape is not one of those above (surrogate escapes, which the
program never writes, are not read). -/
def readString : GoString → Option (GoString × GoString)
  | [] => none
  | b :: rest =>
    if b = 0x22 then some ([], rest)
    else if b = 0x5c then
      match rest with
      | [] => none
      | c :: rest1 =>
        if c = 0x75 then
          match rest1 with
          | h1 :: h2 :: h3 :: h4 :: rest2 =>
            match hexValue h1, hexValue h2, hexValue h3, hexValue h4 with
            | some v1, some v2, some v3, some v4 =>
              match encodeRune (((v1 * 16 + v2) * 16 + v3) * 16 + v4), readString rest2 with
              | some bytes, some (value, after) => some (bytes ++ value, after)
              | _, _ => none
            | _, _, _, _ => none
          | _ => none
        else
          match simpleEscape c, readString rest1 with
          | some x, some (value, after) => some (x :: value, after)
          | _, _ => none
    else
      match readString rest with
      | some (value, after) => some (b :: value, after)
      | none => none

/-- The text of a write body before the single value. -/
def putPrefix : GoString :=
  str "\x7b\"items\":[\x7b\"rrset_type\":\"A\",\"rrset_values\":[\""

/-- The text of a write body after the closing quote of the single value. -/
def putSuffix : GoString := str "]\x7d]\x7d"

/-- The single value a write body carries, as a reader of JSON finds it:
defined for bodies of the shape the program sends, one item of type "A" with
one value. -/
def putValue (body : GoString) : Option GoString :=
  if body.take putPrefix.length = putPrefix then
    match readString (body.drop putPrefix.length) with
    | some (value, after) => if after = putSuffix then some value else none
    | none => none
  else none

/-! ## Concrete runs: the end-to-end scenarios of the specification -/

/-- A provider that answers from a fixed table of requests and a resolver
with a fixed reply; no state. -/
def tableWorld (provider : List (Request × Response)) (resolver : Option Response) :
    World Unit :=
  { clientDo := fun s req => (provider.lookup req, s)
    httpGet := fun s _ => (resolver, s) }

/-- Library behaviour on the inputs of the scenarios: the listed URL texts
parse to the listed URLs, and the listed bodies decode to the listed record
sets. -/
def tableLib (urls : List (GoString × GoString)) (decoded : List (GoString × Record)) :
    Lib :=
  { parseURL := fun rawURL => urls.lookup rawURL
    jsonUnmarshal := fun body => decoded.lookup body }

def demoConfig : Config :=
  { URL := str "https://dns.example/v5/domains/example.org/records"
    IP_RESOLVER_URL := str "https://ip.example/"
    DOMAIN := str "example.org"
    API_KEY := str "k3y"
    SUBDOMAINS := [str "www", str "api"] }

/-- The URL text the program forms for a subdomain of the scenarios. -/
def demoURL (sub : GoString) : GoString := demoConfig.URL ++ str "/" ++ sub

/-- The URLs of `www` and `api` parse and print back unchanged. -/
def demoURLs : List (GoString × GoString) :=
  [(demoURL (str "www"), demoURL (str "www")), (demoURL (str "api"), demoURL (str "api"))]

def wwwBody : GoString :=
  str "[\x7b\"rrset_name\":\"www\",\"rrset_type\":\"A\",\"rrset_ttl\":300,\"rrset_values\":[\"198.51.100.9\"],\"rrset_href\":\"/www/A\"\x7d]"

def wwwEntry : RecordEntry :=
  { RrsetName := str "www", RrsetType := str "A", RrsetTTL := 300,
    RrsetValues := [str "198.51.100.9"], RrsetHref := str "/www/A" }

def wwwRecord : Record := [wwwEntry]

def apiBody : GoString :=
  str "[\x7b\"rrset_name\":\"api\",\"rrset_type\":\"A\",\"rrset_ttl\":300,\"rrset_values\":[\"198.51.100.1\"],\"rrset_href\":\"/api/A\"\x7d]"

def apiEntry : RecordEntry :=
  { RrsetName := str "api", RrsetType := str "A", RrsetTTL := 300,
    RrsetValues := [str "198.51.100.1"], RrsetHref := str "/api/A" }

def apiRecord : Record := [apiEntry]

def demoLib : Lib := tableLib demoURLs [(wwwBody, wwwRecord), (apiBody, apiRecord)]

/-- The scenario of the specification: `www` already publishes the resolved
address, `api` does not, and the write for `api` is answered with
`putStatus`. -/
def demoWorld (putStatus : Int) : World Unit :=
  tableWorld
    [(readRequest demoConfig (demoURL (str "www")), ⟨200, wwwBody⟩),
     (readRequest demoConfig (demoURL (str "api")), ⟨200, apiBody⟩),
     (writeRequest demoConfig (demoURL (str "api")) (putBody (str "198.51.100.9")),
       ⟨putStatus, []⟩)]
    (some ⟨200, str "198.51.100.9\n"⟩)

/-- A run in which the resolver answers with a line of text in Latin-1
("Acc\xe8s refus\xe9", not valid UTF-8) instead of an address. The provider
accepts the write whose single value is that text as `json.Marshal` writes
it, each invalid byte replaced by U+FFFD (bytes EF BF BD). -/
def latin1Config : Config := { demoConfig with SUBDOMAINS := [str "api"] }

/-- The Latin-1 text, without the newline that ends the reply. -/
def latin1Text : GoString := str "Acc" ++ [0xe8] ++ str "s refus" ++ [0xe9]

/-- The Latin-1 text as `json.Marshal` carries it. -/
def latin1Carried : GoString :=
  str "Acc" ++ [0xEF, 0xBF, 0xBD] ++ str "s refus" ++ [0xEF, 0xBF, 0xBD]

def latin1World : World Unit :=
  tableWorld
    [(readRequest latin1Config (demoURL (str "api")), ⟨200, apiBody⟩),
     (writeRequest latin1Config (demoURL (str "api"))
        (str "\x7b\"items\":[\x7b\"rrset_type\":\"A\",\"rrset_values\":[\"" ++ latin1Carried ++
          str "\"]\x7d]\x7d"),
       ⟨201, []⟩)]
    (some ⟨200, latin1Text ++ str "\n"⟩)

/-- A run in which the provider has no record for `www`: the reply is the
empty JSON array. -/
def noRecordWorld : World Unit :=
  tableWorld [(readRequest demoConfig (demoURL (str "www")), ⟨200, str "[]"⟩)]
    (some ⟨200, str "198.51.100.9\n"⟩)

def noRecordLib : Lib := tableLib demoURLs [(str "[]", [])]

/-- A run in which the resolver answers with an empty body. -/
def emptyReplyWorld : World Unit :=
  tableWorld
    [(readRequest demoConfig (demoURL (str "www")), ⟨200, wwwBody⟩),
     (readRequest demoConfig (demoURL (str "api")), ⟨200, apiBody⟩),
     (writeRequest demoConfig (demoURL (str "www")) (putBody []), ⟨201, []⟩)]
    (some ⟨200, []⟩)

/-- The record sets of the scenario with more in them: other names, types
and TTLs, a second value, a second entry; the first value of the first entry
is unchanged. -/
def wwwRichBody : GoString :=
  str "[\x7b\"rrset_name\":\"w\",\"rrset_type\":\"A\",\"rrset_ttl\":60,\"rrset_values\":[\"198.51.100.9\",\"198.51.100.77\"],\"rrset_href\":\"/w\"\x7d,\x7b\"rrset_name\":\"w\",\"rrset_type\":\"TXT\",\"rrset_ttl\":5,\"rrset_values\":[\"hi\"],\"rrset_href\":\"/t\"\x7d]"

def wwwRichRecord : Record :=
  [{ RrsetName := str "w", RrsetType := str "A", RrsetTTL := 60,
     RrsetValues := [str "198.51.100.9", str "198.51.100.77"], RrsetHref := str "/w" },
   { RrsetName := str "w", RrsetType := str "TXT", RrsetTTL := 5,
     RrsetValues := [str "hi"], RrsetHref := str "/t" }]

def apiRichBody : GoString :=
  str "[\x7b\"rrset_name\":\"a\",\"rrset_type\":\"A\",\"rrset_ttl\":60,\"rrset_values\":[\"198.51.100.1\",\"198.51.100.2\"],\"rrset_href\":\"/a\"\x7d]"

def apiRichRecord : Record :=
  [{ RrsetName := str "a", RrsetType := str "A", RrsetTTL := 60,
     RrsetValues := [str "198.51.100.1", str "198.51.100.2"], RrsetHref := str "/a" }]

def richLib : Lib :=
  tableLib demoURLs
    [(wwwBody, wwwRecord), (apiBody, apiRecord), (wwwRichBody, wwwRichRecord),
     (apiRichBody, apiRichRecord)]

def richWorld : World Unit :=
  tableWorld
    [(readRequest demoConfig (demoURL (str "www")), ⟨200, wwwRichBody⟩),
     (readRequest demoConfig (demoURL (str "api")), ⟨200, apiRichBody⟩),
     (writeRequest demoConfig (demoURL (str "api")) (putBody (str "198.51.100.9")),
       ⟨201, []⟩)]
    (some ⟨200, str "198.51.100.9\n"⟩)

/-- The record set of `api` once it publishes the resolved address. -/
def apiNewBody : GoString :=
  str "[\x7b\"rrset_name\":\"api\",\"rrset_type\":\"A\",\"rrset_ttl\":300,\"rrset_values\":[\"198.51.100.9\"],\"rrset_href\":\"/api/A\"\x7d]"

def apiNewEntry : RecordEntry :=
  { RrsetName := str "api", RrsetType := str "A", RrsetTTL := 300,
    RrsetValues := [str "198.51.100.9"], RrsetHref := str "/api/A" }

def liveLib : Lib :=
  tableLib demoURLs [(wwwBody, [wwwEntry]), (apiBody, [apiEntry]), (apiNewBody, [apiNewEntry])]

/-- A provider with memory for the scenario of the specification. The state
tells whether `api` has been written: a PUT for `api` with the resolved
address is answered with 201 and from then on the GET for `api` serves that
address; `www` publishes the resolved address throughout. -/
def liveWorld : World Bool :=
  { clientDo := fun s req =>
      if req = readRequest demoConfig (demoURL (str "www")) then
        (some ⟨200, wwwBody⟩, s)
      else if req = readRequest demoConfig (demoURL (str "api")) then
        (some ⟨200, if s then apiNewBody else apiBody⟩, s)
      else if req = writeRequest demoConfig (demoURL (str "api"))
          (putBody (str "198.51.100.9")) then
        (some ⟨201, []⟩, true)
      else if req = writeRequest demoConfig (demoURL (str "www"))
          (putBody (str "198.51.100.9")) then
        (some ⟨201, []⟩, s)
      else (none, s)
    httpGet := fun s _ => (some ⟨200, str "198.51.100.9\n"⟩, s) }

/-- The first value `liveWorld` publishes for a subdomain in a state. -/
def livePublished (s : Bool) (sub : GoString) : Option GoString :=
  if sub = str "www" then some (str "198.51.100.9")
  else if sub = str "api" then some (if s then str "198.51.100.9" else str "198.51.100.1")
  else none

/-- The record set a provider serves for `api` when it holds the value `v`,
as JSON. -/
def storedBody (v : GoString) : GoString :=
  str "[\x7b\"rrset_name\":\"api\",\"rrset_type\":\"A\",\"rrset_ttl\":300,\"rrset_values\":[" ++
    appendString v ++ str "],\"rrset_href\":\"/api/A\"\x7d]"

/-- A provider with memory for one subdomain, whose state is the value it
holds: it answers a GET with the record set of that value, and a PUT whose
body carries a value with 201, holding the carried value from then on. The
resolver answers with `reply` throughout. -/
def storingWorld (reply : GoString) : World GoString :=
  { clientDo := fun s req =>
      if req.Method = str "GET" then (some ⟨200, storedBody s⟩, s)
      else
        match req.Body.bind putValue with
        | some v => (some ⟨201, []⟩, v)
        | none => (some ⟨400, []⟩, s)
    httpGet := fun s _ => (some ⟨200, reply⟩, s) }

/-- The record sets `storingWorld` serves while it holds 198.51.100.1 and
while it holds the Latin-1 text as a PUT carried it. -/
def storingLib : Lib :=
  tableLib demoURLs
    [(storedBody (str "198.51.100.1"), [apiEntry]),
     (storedBody latin1Carried, [{ apiEntry with RrsetValues := [latin1Carried] }])]

/-! ## Basic facts -/

theorem bind_eq_of_ret {σ α β : Type} (m : Prog σ α) (f : α → Prog σ β) (s s1 : σ) (a : α)
    (ev : List Event) (h : m s = ⟨.ret a, s1, ev⟩) :
    Prog.bind m f s = ⟨(f a s1).out, (f a s1).world, ev ++ (f a s1).events⟩ := by
  simp [Prog.bind, h]

theorem bind_eq_of_fatal {σ α β : Type} (m : Prog σ α) (f : α → Prog σ β) (s s1 : σ)
    (ev : List Event) (h : m s = ⟨.fatal, s1, ev⟩) :
    Prog.bind m f s = ⟨.fatal, s1, ev⟩ := by
  simp [Prog.bind, h]

theorem bind_eq_of_panic {σ α β : Type} (m : Prog σ α) (f : α → Prog σ β) (s s1 : σ)
    (ev : List Event) (h : m s = ⟨.panic, s1, ev⟩) :
    Prog.bind m f s = ⟨.panic, s1, ev⟩ := by
  simp [Prog.bind, h]

@[simp] theorem bind_lift_ret {σ α β : Type} (a : α) (f : α → Prog σ β) (s : σ) :
    Prog.bind (Prog.lift (.ret a)) f s = f a s := by
  simp [Prog.bind, Prog.lift]

@[simp] theorem bind_lift_fatal {σ α β : Type} (f : α → Prog σ β) (s : σ) :
    Prog.bind (Prog.lift (Outcome.fatal : Outcome α)) f s = ⟨.fatal, s, []⟩ := by
  simp [Prog.bind, Prog.lift]

@[simp] theorem bind_lift_panic {σ α β : Type} (f : α → Prog σ β) (s : σ) :
    Prog.bind (Prog.lift (Outcome.panic : Outcome α)) f s = ⟨.panic, s, []⟩ := by
  simp [Prog.bind, Prog.lift]

theorem sliceTo_snoc (ip : GoString) (b : Byte) :
    sliceTo (ip ++ [b]) (((ip ++ [b]).length : Int) - 1) = .ret ip := by
  have h : (((ip ++ [b]).length : Int) - 1) = (ip.length : Int) := by
    simp
  rw [h]
  simp [sliceTo]

theorem sliceTo_nil : sliceTo [] ((([] : GoString).length : Int) - 1) = .panic := by
  simp [sliceTo]

theorem sliceTo_dropLast (body : GoString) (h : body ≠ []) :
    sliceTo body ((body.length : Int) - 1) = .ret body.dropLast := by
  obtain ⟨ip, b, rfl⟩ : ∃ ip b, body = ip ++ [b] :=
    ⟨body.dropLast, body.getLast h, (List.dropLast_append_getLast h).symm⟩
  rw [sliceTo_snoc]
  simp

theorem callAPI_some {σ : Type} (W : World σ) (req : Request) (s s1 : σ) (res : Response)
    (h : W.clientDo s req = (some res, s1)) :
    callAPI W req s = ⟨.ret (res.Body, res.StatusCode), s1, [.clientDo req (some res)]⟩ := by
  simp [callAPI, h]

theorem callAPI_none {σ : Type} (W : World σ) (req : Request) (s s1 : σ)
    (h : W.clientDo s req = (none, s1)) :
    callAPI W req s = ⟨.fatal, s1, [.clientDo req none]⟩ := by
  simp [callAPI, h]

theorem checkCurrentIP_snoc {σ : Type} (W : World σ) (c : Config) (currentIP : GoString)
    (s s1 : σ) (res : Response) (ip : GoString) (b : Byte)
    (h : W.httpGet s c.IP_RESOLVER_URL = (some res, s1)) (hb : res.Body = ip ++ [b]) :
    checkCurrentIP W c currentIP s =
      ⟨.ret (decide (ip = currentIP), ip), s1, [.httpGet c.IP_RESOLVER_URL (some res)]⟩ := by
  unfold checkCurrentIP
  rw [h]
  simp only [hb]
  rw [sliceTo_snoc]

theorem checkCurrentIP_empty {σ : Type} (W : World σ) (c : Config) (currentIP : GoString)
    (s s1 : σ) (res : Response)
    (h : W.httpGet s c.IP_RESOLVER_URL = (some res, s1)) (hb : res.Body = []) :
    checkCurrentIP W c currentIP s =
      ⟨.panic, s1, [.httpGet c.IP_RESOLVER_URL (some res)]⟩ := by
  simp [checkCurrentIP, h, hb, sliceTo]

theorem checkCurrentIP_none {σ : Type} (W : World σ) (c : Config) (currentIP : GoString)
    (s s1 : σ) (h : W.httpGet s c.IP_RESOLVER_URL = (none, s1)) :
    checkCurrentIP W c currentIP s = ⟨.fatal, s1, [.httpGet c.IP_RESOLVER_URL none]⟩ := by
  simp [checkCurrentIP, h]

theorem httpNewRequest_get (L : Lib) (rawURL : GoString) :
    httpNewRequest L (str "GET") rawURL =
      (L.parseURL rawURL).map
        (fun u => { Method := str "GET", URL := u, Header := [], Body := none }) := by
  have h1 : (if str "GET" = [] then str "GET" else str "GET") = str "GET" := by decide
  have h2 : validMethod (str "GET") = true := by decide
  unfold httpNewRequest
  simp only [h1, h2, if_true]
  cases L.parseURL rawURL <;> rfl

theorem httpNewRequest_put (L : Lib) (rawURL : GoString) :
    httpNewRequest L (str "PUT") rawURL =
      (L.parseURL rawURL).map
        (fun u => { Method := str "PUT", URL := u, Header := [], Body := none }) := by
  have h1 : (if str "PUT" = [] then str "GET" else str "PUT") = str "PUT" := by decide
  have h2 : validMethod (str "PUT") = true := by decide
  unfold httpNewRequest
  simp only [h1, h2, if_true]
  cases L.parseURL rawURL <;> rfl

theorem NewAPIRequest_ok (L : Lib) (c : Config) (rawURL u : GoString)
    (h : L.parseURL rawURL = some u) :
    NewAPIRequest L c (str "GET") rawURL = .ret (readRequest c u) := by
  unfold NewAPIRequest
  rw [httpNewRequest_get, h]
  rfl

theorem NewAPIRequest_none (L : Lib) (c : Config) (rawURL : GoString)
    (h : L.parseURL rawURL = none) :
    NewAPIRequest L c (str "GET") rawURL = .fatal := by
  unfold NewAPIRequest
  rw [httpNewRequest_get, h]
  rfl

theorem NewAPIRequestWithBody_ok (L : Lib) (c : Config) (rawURL u body : GoString)
    (h : L.parseURL rawURL = some u) :
    NewAPIRequestWithBody L c (str "PUT") rawURL body = .ret (writeRequest c u body) := by
  unfold NewAPIRequestWithBody NewAPIRequest
  rw [httpNewRequest_put, h]
  rfl

/-! ## The JSON string encoder and its reader -/

/-- A rune decoded from a non-empty string is at least one byte wide. -/
theorem DecodeRuneInString_width_pos (b : Byte) (rest : GoString) :
    1 ≤ (DecodeRuneInString (b :: rest)).2 := by
  have key : ∀ (p : Prop) [Decidable p] (x y : Nat × Nat), 1 ≤ x.2 → 1 ≤ y.2 →
      1 ≤ (if p then x else y).2 := by
    intro p _ x y hx hy
    split <;> assumption
  show 1 ≤ (decodeRune _ _ _ _ _).2
  unfold decodeRune
  simp only []
  refine key _ _ _ (le_refl _) (key _ _ _ (le_refl _) (key _ _ _ (le_refl _)
    (key _ _ _ (le_refl _) (key _ _ _ (by simp) (key _ _ _ (le_refl _)
      (key _ _ _ (by simp) (key _ _ _ (le_refl _) (by simp))))))))

/-- With at least `len(src)` units of fuel the loop of `appendString` does
not depend on the fuel: it never stops for lack of it. -/
theorem appendStringLoop_fuel (n : Nat) :
    ∀ (s : GoString) (f₁ f₂ : Nat), s.length ≤ n → s.length ≤ f₁ → s.length ≤ f₂ →
      appendStringLoop f₁ s = appendStringLoop f₂ s := by
  induction n with
  | zero =>
    intro s f₁ f₂ hn _ _
    have hs : s = [] := List.length_eq_zero.mp (Nat.le_zero.mp hn)
    subst hs
    cases f₁ <;> cases f₂ <;> rfl
  | succ n ih =>
    intro s f₁ f₂ hn h₁ h₂
    cases s with
    | nil => cases f₁ <;> cases f₂ <;> rfl
    | cons b rest =>
      cases f₁ with
      | zero => simp at h₁
      | succ g₁ =>
        cases f₂ with
        | zero => simp at h₂
        | succ g₂ =>
          have hlen : rest.length ≤ n := by simpa using hn
          have hg₁ : rest.length ≤ g₁ := by simpa using h₁
          have hg₂ : rest.length ≤ g₂ := by simpa using h₂
          have hrest := ih rest g₁ g₂ hlen hg₁ hg₂
          have hw := DecodeRuneInString_width_pos b rest
          have hdl : ((b :: rest).drop (DecodeRuneInString (b :: rest)).2).length
              ≤ rest.length := by
            simp only [List.length_drop, List.length_cons]
            omega
          have hdrop := ih ((b :: rest).drop (DecodeRuneInString (b :: rest)).2) g₁ g₂
            (le_trans hdl hlen) (le_trans hdl hg₁) (le_trans hdl hg₂)
          simp only [appendStringLoop, hrest, hdrop]

/-- The three shapes of a multi-byte rune that decodes. -/
theorem decodeRune_valid (n s0 s1 s2 s3 : Nat) (h0 : 0x80 ≤ s0)
    (hv : ¬((decodeRune n s0 s1 s2 s3).1 = RuneError ∧ (decodeRune n s0 s1 s2 s3).2 = 1)) :
    (s0 < 0xE0 ∧ 0xC2 ≤ s0 ∧ 2 ≤ n ∧ 0x80 ≤ s1 ∧ s1 ≤ 0xBF ∧
        decodeRune n s0 s1 s2 s3 = ((s0 % 0x20) * 0x40 + s1 % 0x40, 2)) ∨
      (0xE0 ≤ s0 ∧ s0 < 0xF0 ∧ 3 ≤ n ∧ 0x80 ≤ s1 ∧ s1 ≤ 0xBF ∧ 0x80 ≤ s2 ∧ s2 ≤ 0xBF ∧
        decodeRune n s0 s1 s2 s3 =
          ((s0 % 0x10) * 0x1000 + (s1 % 0x40) * 0x40 + s2 % 0x40, 3)) ∨
      (0xF0 ≤ s0 ∧ s0 ≤ 0xF4 ∧ 4 ≤ n ∧ 0x80 ≤ s1 ∧ s1 ≤ 0xBF ∧ (s0 = 0xF0 → 0x90 ≤ s1) ∧
        0x80 ≤ s2 ∧ s2 ≤ 0xBF ∧ 0x80 ≤ s3 ∧ s3 ≤ 0xBF ∧
        decodeRune n s0 s1 s2 s3 =
          ((s0 % 0x08) * 0x40000 + (s1 % 0x40) * 0x1000 + (s2 % 0x40) * 0x40 + s3 % 0x40,
            4)) := by
  have hn0 : ¬ s0 < 0x80 := by omega
  have hbadRune : ∀ x : Nat × Nat, x = (RuneError, 1) → x.1 = RuneError ∧ x.2 = 1 := by
    rintro x rfl; exact ⟨rfl, rfl⟩
  by_cases hbad : s0 < 0xC2 ∨ 0xF4 < s0
  · exfalso; apply hv; apply hbadRune
    simp only [decodeRune, if_neg hn0, if_pos hbad]
  have hC2 : 0xC2 ≤ s0 := by omega
  have hF4 : s0 ≤ 0xF4 := by omega
  by_cases h2 : s0 < 0xE0
  · -- two bytes
    have e1 : ¬ s0 = 0xE0 := by omega
    have e2 : ¬ s0 = 0xF0 := by omega
    have e3 : ¬ s0 = 0xED := by omega
    have e4 : ¬ s0 = 0xF4 := by omega
    have hd : decodeRune n s0 s1 s2 s3 =
        if n < 2 then (RuneError, 1)
        else if s1 < 0x80 ∨ 0xBF < s1 then (RuneError, 1)
        else ((s0 % 0x20) * 0x40 + s1 % 0x40, 2) := by
      simp only [decodeRune, if_neg hn0, if_neg hbad, if_pos h2, if_neg e1, if_neg e2,
        if_neg e3, if_neg e4, le_refl, if_true]
    rw [hd] at hv ⊢
    by_cases hn : n < 2
    · exfalso; apply hv; apply hbadRune; rw [if_pos hn]
    by_cases hs1 : s1 < 0x80 ∨ 0xBF < s1
    · exfalso; apply hv; apply hbadRune; rw [if_neg hn, if_pos hs1]
    left
    rw [if_neg hn, if_neg hs1]
    exact ⟨h2, hC2, by omega, by omega, by omega, rfl⟩
  by_cases h3 : s0 < 0xF0
  · -- three bytes
    have e2 : ¬ s0 = 0xF0 := by omega
    have e4 : ¬ s0 = 0xF4 := by omega
    have k1 : ¬ (3 : Nat) ≤ 2 := by omega
    have hd : decodeRune n s0 s1 s2 s3 =
        if n < 3 then (RuneError, 1)
        else if s1 < (if s0 = 0xE0 then 0xA0 else 0x80) ∨
            (if s0 = 0xED then 0x9F else 0xBF) < s1 then (RuneError, 1)
        else if s2 < 0x80 ∨ 0xBF < s2 then (RuneError, 1)
        else ((s0 % 0x10) * 0x1000 + (s1 % 0x40) * 0x40 + s2 % 0x40, 3) := by
      simp only [decodeRune, if_neg hn0, if_neg hbad, if_neg h2, if_pos h3, if_neg e2,
        if_neg e4, if_neg k1, le_refl, if_true]
    rw [hd] at hv ⊢
    by_cases hn : n < 3
    · exfalso; apply hv; apply hbadRune; rw [if_pos hn]
    by_cases hs1 : s1 < (if s0 = 0xE0 then 0xA0 else 0x80) ∨
        (if s0 = 0xED then 0x9F else 0xBF) < s1
    · exfalso; apply hv; apply hbadRune; rw [if_neg hn, if_pos hs1]
    by_cases hs2 : s2 < 0x80 ∨ 0xBF < s2
    · exfalso; apply hv; apply hbadRune; rw [if_neg hn, if_neg hs1, if_pos hs2]
    right; left
    rw [if_neg hn, if_neg hs1, if_neg hs2]
    have hs1a : 0x80 ≤ s1 ∧ s1 ≤ 0xBF := by
      split_ifs at hs1 <;> omega
    exact ⟨by omega, h3, by omega, hs1a.1, hs1a.2, by omega, by omega, rfl⟩
  · -- four bytes
    have e1 : ¬ s0 = 0xE0 := by omega
    have e3 : ¬ s0 = 0xED := by omega
    have k1 : ¬ (4 : Nat) ≤ 2 := by omega
    have k2 : ¬ (4 : Nat) ≤ 3 := by omega
    have hd : decodeRune n s0 s1 s2 s3 =
        if n < 4 then (RuneError, 1)
        else if s1 < (if s0 = 0xF0 then 0x90 else 0x80) ∨
            (if s0 = 0xF4 then 0x8F else 0xBF) < s1 then (RuneError, 1)
        else if s2 < 0x80 ∨ 0xBF < s2 then (RuneError, 1)
        else if s3 < 0x80 ∨ 0xBF < s3 then (RuneError, 1)
        else ((s0 % 0x08) * 0x40000 + (s1 % 0x40) * 0x1000 + (s2 % 0x40) * 0x40 + s3 % 0x40,
          4) := by
      simp only [decodeRune, if_neg hn0, if_neg hbad, if_neg h2, if_neg h3, if_neg e1,
        if_neg e3, if_neg k1, if_neg k2]
    rw [hd] at hv ⊢
    by_cases hn : n < 4
    · exfalso; apply hv; apply hbadRune; rw [if_pos hn]
    by_cases hs1 : s1 < (if s0 = 0xF0 then 0x90 else 0x80) ∨
        (if s0 = 0xF4 then 0x8F else 0xBF) < s1
    · exfalso; apply hv; apply hbadRune; rw [if_neg hn, if_pos hs1]
    by_cases hs2 : s2 < 0x80 ∨ 0xBF < s2
    · exfalso; apply hv; apply hbadRune; rw [if_neg hn, if_neg hs1, if_pos hs2]
    by_cases hs3 : s3 < 0x80 ∨ 0xBF < s3
    · exfalso; apply hv; apply hbadRune; rw [if_neg hn, if_neg hs1, if_neg hs2, if_pos hs3]
    right; right
    rw [if_neg hn, if_neg hs1, if_neg hs2, if_neg hs3]
    have hs1a : 0x80 ≤ s1 ∧ s1 ≤ 0xBF ∧ (s0 = 0xF0 → 0x90 ≤ s1) := by
      split_ifs at hs1 <;> omega
    exact ⟨by omega, hF4, by omega, hs1a.1, hs1a.2.1, hs1a.2.2, by omega, by omega,
      by omega, by omega, rfl⟩

theorem byte_of_toNat (b : Byte) (n : Nat) (h : b.toNat = n) (hn : n < 256) :
    b = UInt8.ofNat n :=
  UInt8.ext_iff.mpr (by rw [h, UInt8.toNat_ofNat_of_lt hn])

/-- A valid multi-byte rune at the head of a string: its bytes are all
there, none of them is ASCII, and the line and paragraph separators are the
byte sequences E2 80 A8 and E2 80 A9. -/
theorem decode_valid (b : Byte) (rest : GoString) (hb : 0x80 ≤ b.toNat)
    (hv : ¬((DecodeRuneInString (b :: rest)).1 = RuneError ∧
      (DecodeRuneInString (b :: rest)).2 = 1)) :
    (DecodeRuneInString (b :: rest)).2 ≤ (b :: rest).length ∧
      (∀ x ∈ (b :: rest).take (DecodeRuneInString (b :: rest)).2, 0x80 ≤ x.toNat) ∧
      ((DecodeRuneInString (b :: rest)).1 = 0x2028 →
        (b :: rest).take (DecodeRuneInString (b :: rest)).2 = [0xE2, 0x80, 0xA8]) ∧
      ((DecodeRuneInString (b :: rest)).1 = 0x2029 →
        (b :: rest).take (DecodeRuneInString (b :: rest)).2 = [0xE2, 0x80, 0xA9]) := by
  have hdef : DecodeRuneInString (b :: rest) =
      decodeRune (rest.length + 1) b.toNat (rest.getD 0 0).toNat (rest.getD 1 0).toNat
        (rest.getD 2 0).toNat := rfl
  rw [hdef] at hv ⊢
  rcases decodeRune_valid _ _ _ _ _ hb hv with
    ⟨h1, h2, hn, h3, h4, hd⟩ | ⟨h1, h2, hn, h3, h4, h5, h6, hd⟩ |
    ⟨h1, h2, hn, h3, h4, h4', h5, h6, h7, h8, hd⟩
  · rcases rest with _ | ⟨b1, t⟩
    · simp at hn
    rw [hd]
    simp only [List.getD_cons_zero] at h3 h4 ⊢
    refine ⟨by simp, ?_, ?_, ?_⟩
    · intro x hx
      simp only [List.take_succ_cons, List.take_zero, List.mem_cons, List.mem_singleton,
        List.not_mem_nil, or_false] at hx
      rcases hx with rfl | rfl <;> assumption
    · intro h; omega
    · intro h; omega
  · rcases rest with _ | ⟨b1, _ | ⟨b2, t⟩⟩
    · simp at hn
    · simp at hn
    rw [hd]
    simp only [List.getD_cons_zero, List.getD_cons_succ] at h3 h4 h5 h6 ⊢
    refine ⟨by simp, ?_, ?_, ?_⟩
    · intro x hx
      simp only [List.take_succ_cons, List.take_zero, List.mem_cons, List.mem_singleton,
        List.not_mem_nil, or_false] at hx
      rcases hx with rfl | rfl | rfl <;> assumption
    · intro h
      have hb0 : b.toNat = 0xE2 := by omega
      have hb1 : b1.toNat = 0x80 := by omega
      have hb2 : b2.toNat = 0xA8 := by omega
      rw [byte_of_toNat b _ hb0 (by omega), byte_of_toNat b1 _ hb1 (by omega),
        byte_of_toNat b2 _ hb2 (by omega)]
      rfl
    · intro h
      have hb0 : b.toNat = 0xE2 := by omega
      have hb1 : b1.toNat = 0x80 := by omega
      have hb2 : b2.toNat = 0xA9 := by omega
      rw [byte_of_toNat b _ hb0 (by omega), byte_of_toNat b1 _ hb1 (by omega),
        byte_of_toNat b2 _ hb2 (by omega)]
      rfl
  · rcases rest with _ | ⟨b1, _ | ⟨b2, _ | ⟨b3, t⟩⟩⟩
    · simp at hn
    · simp at hn
    · simp at hn
    rw [hd]
    simp only [List.getD_cons_zero, List.getD_cons_succ] at h3 h4 h4' h5 h6 h7 h8 ⊢
    refine ⟨by simp, ?_, ?_, ?_⟩
    · intro x hx
      simp only [List.take_succ_cons, List.take_zero, List.mem_cons, List.mem_singleton,
        List.not_mem_nil, or_false] at hx
      rcases hx with rfl | rfl | rfl | rfl <;> assumption
    · intro h; omega
    · intro h; omega

theorem htmlSafeSet_lt (b : Byte) (h : htmlSafeSet b = true) : b.toNat < 0x80 := by
  unfold htmlSafeSet at h
  simp only [Bool.and_eq_true, decide_eq_true_eq] at h
  exact h.1.2

theorem appendStringLoop_safe (s : GoString) :
    ∀ fuel, s.length ≤ fuel → (∀ x ∈ s, htmlSafeSet x = true) → appendStringLoop fuel s = s := by
  induction s with
  | nil => intro fuel _ _; cases fuel <;> rfl
  | cons b rest ih =>
    intro fuel hfuel hs
    cases fuel with
    | zero => simp at hfuel
    | succ n =>
      have hb : htmlSafeSet b = true := hs b (List.mem_cons_self _ _)
      have hlt := htmlSafeSet_lt b hb
      have hrest := ih n (by simpa using hfuel) (fun x hx => hs x (List.mem_cons_of_mem _ hx))
      simp only [appendStringLoop, hlt, hb, if_true, hrest]

/-- A string of bytes that need no escape is written between two quotes as it is. -/
theorem appendString_safe (s : GoString) (hs : ∀ x ∈ s, htmlSafeSet x = true) :
    appendString s = [0x22] ++ s ++ [0x22] := by
  unfold appendString escapeString
  rw [appendStringLoop_safe s s.length (le_refl _) hs]

theorem putBody_safe (ip : GoString) (hs : ∀ x ∈ ip, htmlSafeSet x = true) :
    putBody ip = literalPutBody ip := by
  have h1 : str "\x7b\"items\":[\x7b\"rrset_type\":\"A\",\"rrset_values\":[\"" =
      str "\x7b\"items\":[\x7b\"rrset_type\":\"A\",\"rrset_values\":[" ++ [0x22] := by decide
  have h2 : str "\"]\x7d]\x7d" = [0x22] ++ str "]\x7d]\x7d" := by decide
  unfold putBody literalPutBody
  rw [appendString_safe ip hs, h1, h2]
  simp only [List.append_assoc]

/-! ### What the encoder writes, unit by unit -/

theorem escapeString_nil : escapeString [] = [] := rfl

theorem escapeString_ascii (b : Byte) (rest : GoString) (h : b.toNat < 0x80) :
    escapeString (b :: rest) =
      (if htmlSafeSet b then [b] else escapeByte b) ++ escapeString rest := by
  unfold escapeString
  simp only [List.length_cons, appendStringLoop, h, if_true]
  split <;> simp

theorem escapeString_invalid (b : Byte) (rest : GoString) (h : ¬ b.toNat < 0x80)
    (hd : (DecodeRuneInString (b :: rest)).1 = RuneError ∧
      (DecodeRuneInString (b :: rest)).2 = 1) :
    escapeString (b :: rest) = [0xEF, 0xBF, 0xBD] ++ escapeString rest := by
  unfold escapeString
  simp only [List.length_cons, appendStringLoop, h, if_false, hd, and_self, if_true]

theorem drop_width_le (b : Byte) (rest : GoString) :
    ((b :: rest).drop (DecodeRuneInString (b :: rest)).2).length ≤ rest.length := by
  have hw := DecodeRuneInString_width_pos b rest
  simp only [List.length_drop, List.length_cons]
  omega

theorem escapeString_separator (b : Byte) (rest : GoString) (h : ¬ b.toNat < 0x80)
    (hd : ¬((DecodeRuneInString (b :: rest)).1 = RuneError ∧
      (DecodeRuneInString (b :: rest)).2 = 1))
    (hs : (DecodeRuneInString (b :: rest)).1 = 0x2028 ∨
      (DecodeRuneInString (b :: rest)).1 = 0x2029) :
    escapeString (b :: rest) =
      str "\\u202" ++ [hex ((DecodeRuneInString (b :: rest)).1 % 16)] ++
        escapeString ((b :: rest).drop (DecodeRuneInString (b :: rest)).2) := by
  unfold escapeString
  simp only [List.length_cons, appendStringLoop, h, if_false, hd, hs, if_true]
  rw [appendStringLoop_fuel rest.length _ rest.length _ (drop_width_le b rest)
    (drop_width_le b rest) (le_refl _)]

theorem escapeString_copy (b : Byte) (rest : GoString) (h : ¬ b.toNat < 0x80)
    (hd : ¬((DecodeRuneInString (b :: rest)).1 = RuneError ∧
      (DecodeRuneInString (b :: rest)).2 = 1))
    (hs : ¬((DecodeRuneInString (b :: rest)).1 = 0x2028 ∨
      (DecodeRuneInString (b :: rest)).1 = 0x2029)) :
    escapeString (b :: rest) =
      (b :: rest).take (DecodeRuneInString (b :: rest)).2 ++
        escapeString ((b :: rest).drop (DecodeRuneInString (b :: rest)).2) := by
  unfold escapeString
  simp only [List.length_cons, appendStringLoop, h, if_false, hd, hs]
  rw [appendStringLoop_fuel rest.length _ rest.length _ (drop_width_le b rest)
    (drop_width_le b rest) (le_refl _)]

/-! ### Reading back what the encoder wrote -/

theorem readString_copy (b : Byte) (X : GoString) (h1 : b ≠ 0x22) (h2 : b ≠ 0x5c) :
    readString (b :: X) = (readString X).map (fun p => (b :: p.1, p.2)) := by
  rw [readString.eq_def]
  simp only [h1, h2, if_false]
  rcases readString X with _ | ⟨value, after⟩ <;> rfl

theorem readString_chunk (chunk X : GoString)
    (h : ∀ x ∈ chunk, x ≠ 0x22 ∧ x ≠ 0x5c) :
    readString (chunk ++ X) = (readString X).map (fun p => (chunk ++ p.1, p.2)) := by
  induction chunk with
  | nil => simp
  | cons b t ih =>
    have hb := h b (List.mem_cons_self _ _)
    rw [List.cons_append, readString_copy b _ hb.1 hb.2,
      ih (fun x hx => h x (List.mem_cons_of_mem _ hx))]
    rcases readString X with _ | ⟨value, after⟩ <;> rfl

theorem ne_of_toNat_ge (x : Byte) (h : 0x80 ≤ x.toNat) : x ≠ 0x22 ∧ x ≠ 0x5c := by
  constructor <;> intro hx <;> rw [hx] at h <;> exact absurd h (by decide)

theorem htmlSafeSet_ne (b : Byte) (h : htmlSafeSet b = true) : b ≠ 0x22 ∧ b ≠ 0x5c := by
  constructor <;> intro hx <;> rw [hx] at h <;> exact absurd h (by decide)

theorem hexValue_hex : ∀ n, n < 16 → hexValue (hex n) = some n := by decide

theorem readString_simple (c x : Byte) (X : GoString) (hc : c ≠ 0x75)
    (hx : simpleEscape c = some x) :
    readString (0x5c :: c :: X) = (readString X).map (fun p => (x :: p.1, p.2)) := by
  have h1 : ¬ ((0x5c : Byte) = 0x22) := by decide
  rw [readString.eq_def]
  simp only [h1, if_false, if_true, hc, hx]
  rcases readString X with _ | ⟨value, after⟩ <;> rfl

theorem readString_unicode (h1 h2 h3 h4 : Byte) (v1 v2 v3 v4 : Nat) (bytes X : GoString)
    (e1 : hexValue h1 = some v1) (e2 : hexValue h2 = some v2) (e3 : hexValue h3 = some v3)
    (e4 : hexValue h4 = some v4)
    (he : encodeRune (((v1 * 16 + v2) * 16 + v3) * 16 + v4) = some bytes) :
    readString (0x5c :: 0x75 :: h1 :: h2 :: h3 :: h4 :: X) =
      (readString X).map (fun p => (bytes ++ p.1, p.2)) := by
  have k1 : ¬ ((0x5c : Byte) = 0x22) := by decide
  rw [readString.eq_def]
  simp only [k1, if_false, if_true, e1, e2, e3, e4, he]
  rcases readString X with _ | ⟨value, after⟩ <;> rfl

/-- An escape written for an ASCII byte reads back as that byte. -/
theorem readString_escapeByte (b : Byte) (X : GoString) (hlt : b.toNat < 0x80) :
    readString (escapeByte b ++ X) = (readString X).map (fun p => (b :: p.1, p.2)) := by
  unfold escapeByte
  by_cases c1 : b = 0x5c ∨ b = 0x22
  · rw [if_pos c1]
    rcases c1 with rfl | rfl
    · exact readString_simple _ _ X (by decide) (by decide)
    · exact readString_simple _ _ X (by decide) (by decide)
  rw [if_neg c1]
  by_cases c2 : b = 0x08
  · subst c2; exact readString_simple _ _ X (by decide) (by decide)
  rw [if_neg c2]
  by_cases c3 : b = 0x0c
  · subst c3; exact readString_simple _ _ X (by decide) (by decide)
  rw [if_neg c3]
  by_cases c4 : b = 0x0a
  · subst c4; exact readString_simple _ _ X (by decide) (by decide)
  rw [if_neg c4]
  by_cases c5 : b = 0x0d
  · subst c5; exact readString_simple _ _ X (by decide) (by decide)
  rw [if_neg c5]
  by_cases c6 : b = 0x09
  · subst c6; exact readString_simple _ _ X (by decide) (by decide)
  rw [if_neg c6]
  have hu : str "\\u00" = [0x5c, 0x75, 0x30, 0x30] := by decide
  rw [hu]
  have hhi : b.toNat / 16 < 16 := by omega
  have hlo : b.toNat % 16 < 16 := by omega
  have hval : ((0 * 16 + 0) * 16 + b.toNat / 16) * 16 + b.toNat % 16 = b.toNat := by omega
  have henc : encodeRune (((0 * 16 + 0) * 16 + b.toNat / 16) * 16 + b.toNat % 16) =
      some [b] := by
    rw [hval]
    unfold encodeRune
    rw [if_pos hlt]
    congr 2
    exact (byte_of_toNat b _ rfl (by omega)).symm
  exact readString_unicode 0x30 0x30 _ _ 0 0 _ _ [b] X (by decide) (by decide)
    (hexValue_hex _ hhi) (hexValue_hex _ hlo) henc

theorem readString_separator (n : Nat) (X : GoString) (hn : n = 0x2028 ∨ n = 0x2029) :
    readString (str "\\u202" ++ [hex (n % 16)] ++ X) =
      (readString X).map
        (fun p => ([0xE2, 0x80, if n = 0x2028 then 0xA8 else 0xA9] ++ p.1, p.2)) := by
  have hu : str "\\u202" = [0x5c, 0x75, 0x32, 0x30, 0x32] := by decide
  rw [hu]
  rcases hn with rfl | rfl
  · exact readString_unicode 0x32 0x30 0x32 _ 2 0 2 8 _ X (by decide) (by decide)
      (by decide) (by decide) (by decide)
  · exact readString_unicode 0x32 0x30 0x32 _ 2 0 2 9 _ X (by decide) (by decide)
      (by decide) (by decide) (by decide)

/-- What the encoder writes for valid UTF-8, followed by a quote, reads back
as the text it was given. -/
theorem readString_appendStringLoop (fuel : Nat) :
    ∀ (s rem : GoString), s.length ≤ fuel → validLoop fuel s = true →
      readString (appendStringLoop fuel s ++ 0x22 :: rem) = some (s, rem) := by
  induction fuel with
  | zero =>
    intro s rem hlen _
    have hs : s = [] := List.length_eq_zero.mp (Nat.le_zero.mp hlen)
    subst hs
    rw [appendStringLoop, List.nil_append, readString.eq_def]
    simp
  | succ n ih =>
    intro s rem hlen hvalid
    cases s with
    | nil =>
      have h0 : appendStringLoop (n + 1) [] = [] := rfl
      rw [h0, List.nil_append, readString.eq_def]
      simp
    | cons b rest =>
      have hrest : rest.length ≤ n := by simpa using hlen
      by_cases hb : b.toNat < 0x80
      · have hv : validLoop n rest = true := by
          simpa only [validLoop, hb, if_true] using hvalid
        have ih' := ih rest rem hrest hv
        by_cases hsafe : htmlSafeSet b = true
        · simp only [appendStringLoop, hb, hsafe, if_true, List.cons_append]
          rw [readString_copy b _ (htmlSafeSet_ne b hsafe).1 (htmlSafeSet_ne b hsafe).2, ih']
          rfl
        · simp only [appendStringLoop, hb, hsafe, if_true, Bool.false_eq_true, if_false,
            List.append_assoc]
          rw [readString_escapeByte b _ hb, ih']
          rfl
      · have hb' : 0x80 ≤ b.toNat := by omega
        have hd : ¬((DecodeRuneInString (b :: rest)).1 = RuneError ∧
            (DecodeRuneInString (b :: rest)).2 = 1) := by
          intro hd
          simp only [validLoop, hb, if_false, hd, and_self, if_true] at hvalid
          exact absurd hvalid (by decide)
        have hv : validLoop n ((b :: rest).drop (DecodeRuneInString (b :: rest)).2) = true := by
          simpa only [validLoop, hb, if_false, hd] using hvalid
        have hdl := drop_width_le b rest
        have ih' := ih _ rem (le_trans hdl hrest) hv
        obtain ⟨-, hge, h28, h29⟩ := decode_valid b rest hb' hd
        have hsplit := List.take_append_drop (DecodeRuneInString (b :: rest)).2 (b :: rest)
        by_cases hs : (DecodeRuneInString (b :: rest)).1 = 0x2028 ∨
            (DecodeRuneInString (b :: rest)).1 = 0x2029
        · simp only [appendStringLoop, hb, if_false, hd, hs, if_true, List.append_assoc]
          have := readString_separator (DecodeRuneInString (b :: rest)).1
            (appendStringLoop n ((b :: rest).drop (DecodeRuneInString (b :: rest)).2) ++
              0x22 :: rem) hs
          simp only [List.append_assoc] at this
          rw [this, ih']
          rcases hs with h | h
          · rw [h28 h] at hsplit
            simp only [h, if_true, Option.map_some']
            rw [hsplit]
          · rw [h29 h] at hsplit
            have hne : ¬ ((0x2029 : Nat) = 0x2028) := by decide
            simp only [h, hne, if_false, Option.map_some']
            rw [hsplit]
        · simp only [appendStringLoop, hb, if_false, hd, hs, List.append_assoc]
          rw [readString_chunk _ _ (fun x hx => ne_of_toNat_ge x (hge x hx)), ih']
          simp only [Option.map_some']
          rw [hsplit]

/-! ### The escapes, class by class -/

theorem escapeString_quote (b : Byte) (rest : GoString) (h : b = 0x22 ∨ b = 0x5c) :
    escapeString (b :: rest) = [0x5c, b] ++ escapeString rest := by
  rcases h with rfl | rfl
  · rw [escapeString_ascii _ _ (by decide)]; rfl
  · rw [escapeString_ascii _ _ (by decide)]; rfl

theorem escapeString_short (rest : GoString) :
    escapeString (0x08 :: rest) = str "\\b" ++ escapeString rest ∧
      escapeString (0x0c :: rest) = str "\\f" ++ escapeString rest ∧
      escapeString (0x0a :: rest) = str "\\n" ++ escapeString rest ∧
      escapeString (0x0d :: rest) = str "\\r" ++ escapeString rest ∧
      escapeString (0x09 :: rest) = str "\\t" ++ escapeString rest := by
  refine ⟨?_, ?_, ?_, ?_, ?_⟩ <;> (rw [escapeString_ascii _ _ (by decide)]; rfl)

theorem escapeString_hex (b : Byte) (rest : GoString)
    (h : b.toNat < 0x20 ∨ b = 0x3c ∨ b = 0x3e ∨ b = 0x26)
    (hn : b ∉ [(0x08 : Byte), 0x0c, 0x0a, 0x0d, 0x09]) :
    escapeString (b :: rest) =
      str "\\u00" ++ [(str "0123456789abcdef").getD (b.toNat / 16) 0,
        (str "0123456789abcdef").getD (b.toNat % 16) 0] ++ escapeString rest := by
  have hlt : b.toNat < 0x80 := by
    rcases h with h | rfl | rfl | rfl
    · omega
    all_goals decide
  have hsafe : htmlSafeSet b = false := by
    rcases h with h | rfl | rfl | rfl
    · unfold htmlSafeSet
      have : ¬ (0x20 ≤ b.toNat) := by omega
      simp [this]
    all_goals decide
  have h5c : ¬ (b = 0x5c ∨ b = 0x22) := by
    rcases h with h | rfl | rfl | rfl
    · rintro (rfl | rfl) <;> exact absurd h (by decide)
    all_goals decide
  simp only [List.mem_cons, List.mem_singleton, List.not_mem_nil, or_false, not_or] at hn
  obtain ⟨n1, n2, n3, n4, n5⟩ := hn
  rw [escapeString_ascii _ _ hlt, hsafe]
  simp only [Bool.false_eq_true, if_false, escapeByte, h5c, n1, n2, n3, n4, n5, hex]

theorem escapeString_plain (b : Byte) (rest : GoString) (h1 : 0x20 ≤ b.toNat)
    (h2 : b.toNat < 0x80) (hn : b ∉ [(0x22 : Byte), 0x5c, 0x3c, 0x3e, 0x26]) :
    escapeString (b :: rest) = b :: escapeString rest := by
  simp only [List.mem_cons, List.mem_singleton, List.not_mem_nil, or_false, not_or] at hn
  obtain ⟨n1, n2, n3, n4, n5⟩ := hn
  have hsafe : htmlSafeSet b = true := by
    unfold htmlSafeSet
    simp [h1, h2, n1, n2, n3, n4, n5]
  rw [escapeString_ascii _ _ h2, hsafe]
  rfl

theorem escapeString_line_separator (b : Byte) (rest : GoString) (h : 0x80 ≤ b.toNat)
    (hd : ¬((DecodeRuneInString (b :: rest)).1 = RuneError ∧
      (DecodeRuneInString (b :: rest)).2 = 1)) :
    ((DecodeRuneInString (b :: rest)).1 = 0x2028 →
        escapeString (b :: rest) = str "\\u2028" ++
          escapeString ((b :: rest).drop (DecodeRuneInString (b :: rest)).2)) ∧
      ((DecodeRuneInString (b :: rest)).1 = 0x2029 →
        escapeString (b :: rest) = str "\\u2029" ++
          escapeString ((b :: rest).drop (DecodeRuneInString (b :: rest)).2)) := by
  have hb : ¬ b.toNat < 0x80 := by omega
  constructor
  · intro h8
    rw [escapeString_separator b rest hb hd (Or.inl h8), h8]
    have : str "\\u202" ++ [hex (0x2028 % 16)] = str "\\u2028" := by decide
    rw [this]
  · intro h9
    rw [escapeString_separator b rest hb hd (Or.inr h9), h9]
    have : str "\\u202" ++ [hex (0x2029 % 16)] = str "\\u2029" := by decide
    rw [this]

theorem putBody_eq (ip : GoString) :
    putBody ip = putPrefix ++ (escapeString ip ++ 0x22 :: putSuffix) := by
  have h1 : putPrefix =
      str "\x7b\"items\":[\x7b\"rrset_type\":\"A\",\"rrset_values\":[" ++ [0x22] := by decide
  rw [h1]
  unfold putBody appendString putSuffix
  simp only [List.append_assoc, List.singleton_append, List.cons_append, List.nil_append]

/-- A reader of JSON finds in the write body the text it was built from,
provided that text is valid UTF-8. -/
theorem putValue_putBody (ip : GoString) (h : validUTF8 ip = true) :
    putValue (putBody ip) = some ip := by
  rw [putBody_eq]
  unfold putValue
  rw [List.take_left, List.drop_left]
  unfold escapeString
  rw [readString_appendStringLoop ip.length ip putSuffix (le_refl _) h]
  simp

/-! ## The runs of the loop body -/

theorem marshalOrFatal_single (ip : GoString) :
    marshalOrFatal { Items := [{ RrsetType := str "A", RrsetValues := [ip] }] } =
      .ret (putBody ip) := by
  have h1 : str "\x7b\"items\":[" ++ (str "\x7b\"rrset_type\":" ++ (appendString (str "A") ++
      str ",\"rrset_values\":[")) = str "\x7b\"items\":[\x7b\"rrset_type\":\"A\",\"rrset_values\":[" := by
    decide
  have h2 : str "]\x7d" ++ str "]\x7d" = str "]\x7d]\x7d" := by decide
  simp only [marshalOrFatal, jsonMarshal, putBody, List.map, joinComma, marshalPutRecord,
    List.append_assoc, h2]
  rw [← h1]
  simp only [List.append_assoc]

section scenarios
variable {σ : Type} (W : World σ) (L : Lib) (c : Config) (url sub u : GoString)

theorem body_badGet (s : σ)
    (hurl : L.parseURL (url ++ str "/" ++ sub) = none) :
    updateRecordsBody W L c url sub s = ⟨.fatal, s, []⟩ := by
  unfold updateRecordsBody
  simp only []
  rw [NewAPIRequest_none L c _ hurl, bind_lift_fatal]

theorem body_getError (s s1 : σ)
    (hurl : L.parseURL (url ++ str "/" ++ sub) = some u)
    (hget : W.clientDo s (readRequest c u) = (none, s1)) :
    updateRecordsBody W L c url sub s =
      ⟨.fatal, s1, [.clientDo (readRequest c u) none]⟩ := by
  unfold updateRecordsBody
  simp only []
  rw [NewAPIRequest_ok L c _ u hurl, bind_lift_ret,
    bind_eq_of_fatal _ _ _ _ _ (callAPI_none W _ s s1 hget)]

theorem body_badJson (s s1 : σ) (g : Response)
    (hurl : L.parseURL (url ++ str "/" ++ sub) = some u)
    (hget : W.clientDo s (readRequest c u) = (some g, s1))
    (hdec : L.jsonUnmarshal g.Body = none) :
    updateRecordsBody W L c url sub s =
      ⟨.fatal, s1, [.clientDo (readRequest c u) (some g)]⟩ := by
  unfold updateRecordsBody
  simp only []
  rw [NewAPIRequest_ok L c _ u hurl, bind_lift_ret,
    bind_eq_of_ret _ _ _ _ _ _ (callAPI_some W _ s s1 g hget)]
  simp [unmarshalOrFatal, hdec]

theorem body_noValue (s s1 : σ) (g : Response) (result : Record)
    (hurl : L.parseURL (url ++ str "/" ++ sub) = some u)
    (hget : W.clientDo s (readRequest c u) = (some g, s1))
    (hdec : L.jsonUnmarshal g.Body = some result)
    (hnone : result = [] ∨ ∃ e es, result = e :: es ∧ e.RrsetValues = []) :
    updateRecordsBody W L c url sub s =
      ⟨.panic, s1, [.clientDo (readRequest c u) (some g)]⟩ := by
  unfold updateRecordsBody
  simp only []
  rw [NewAPIRequest_ok L c _ u hurl, bind_lift_ret,
    bind_eq_of_ret _ _ _ _ _ _ (callAPI_some W _ s s1 g hget)]
  rcases hnone with rfl | ⟨e, es, rfl, hv⟩
  · simp [unmarshalOrFatal, hdec, index]
  · simp [unmarshalOrFatal, hdec, index, hv]

theorem body_resolverError (s s1 s2 : σ) (g : Response) (e : RecordEntry) (es : Record)
    (v : GoString) (vs : List GoString)
    (hurl : L.parseURL (url ++ str "/" ++ sub) = some u)
    (hget : W.clientDo s (readRequest c u) = (some g, s1))
    (hdec : L.jsonUnmarshal g.Body = some (e :: es))
    (hval : e.RrsetValues = v :: vs)
    (hres : W.httpGet s1 c.IP_RESOLVER_URL = (none, s2)) :
    updateRecordsBody W L c url sub s =
      ⟨.fatal, s2,
        [.clientDo (readRequest c u) (some g), .httpGet c.IP_RESOLVER_URL none]⟩ := by
  unfold updateRecordsBody
  simp only []
  rw [NewAPIRequest_ok L c _ u hurl, bind_lift_ret,
    bind_eq_of_ret _ _ _ _ _ _ (callAPI_some W _ s s1 g hget)]
  simp only [unmarshalOrFatal, hdec, bind_lift_ret, index, List.getElem?_cons_zero, hval]
  rw [bind_eq_of_fatal _ _ _ _ _ (checkCurrentIP_none W c v s1 s2 hres)]
  simp

theorem body_emptyBody (s s1 s2 : σ) (g r : Response) (e : RecordEntry) (es : Record)
    (v : GoString) (vs : List GoString)
    (hurl : L.parseURL (url ++ str "/" ++ sub) = some u)
    (hget : W.clientDo s (readRequest c u) = (some g, s1))
    (hdec : L.jsonUnmarshal g.Body = some (e :: es))
    (hval : e.RrsetValues = v :: vs)
    (hres : W.httpGet s1 c.IP_RESOLVER_URL = (some r, s2))
    (hbody : r.Body = []) :
    updateRecordsBody W L c url sub s =
      ⟨.panic, s2,
        [.clientDo (readRequest c u) (some g),
         .httpGet c.IP_RESOLVER_URL (some r)]⟩ := by
  unfold updateRecordsBody
  simp only []
  rw [NewAPIRequest_ok L c _ u hurl, bind_lift_ret,
    bind_eq_of_ret _ _ _ _ _ _ (callAPI_some W _ s s1 g hget)]
  simp only [unmarshalOrFatal, hdec, bind_lift_ret, index, List.getElem?_cons_zero, hval]
  rw [bind_eq_of_panic _ _ _ _ _ (checkCurrentIP_empty W c v s1 s2 r hres hbody)]
  simp

theorem body_unchanged (s s1 s2 : σ) (g r : Response) (e : RecordEntry) (es : Record)
    (v : GoString) (vs : List GoString) (ip : GoString) (b : Byte)
    (hurl : L.parseURL (url ++ str "/" ++ sub) = some u)
    (hget : W.clientDo s (readRequest c u) = (some g, s1))
    (hdec : L.jsonUnmarshal g.Body = some (e :: es))
    (hval : e.RrsetValues = v :: vs)
    (hres : W.httpGet s1 c.IP_RESOLVER_URL = (some r, s2))
    (hbody : r.Body = ip ++ [b])
    (heq : v = ip) :
    updateRecordsBody W L c url sub s =
      ⟨.ret .next, s2,
        [.clientDo (readRequest c u) (some g), .httpGet c.IP_RESOLVER_URL (some r),
         .logPrintln (sub ++ str " \t[OK]")]⟩ := by
  unfold updateRecordsBody
  simp only []
  rw [NewAPIRequest_ok L c _ u hurl, bind_lift_ret,
    bind_eq_of_ret _ _ _ _ _ _ (callAPI_some W _ s s1 g hget)]
  simp only [unmarshalOrFatal, hdec, bind_lift_ret, index, List.getElem?_cons_zero, hval]
  rw [bind_eq_of_ret _ _ _ _ _ _ (checkCurrentIP_snoc W c v s1 s2 r ip b hres hbody)]
  simp [heq, Prog.bind, logPrintln, Prog.pure]

theorem body_putError (s s1 s2 s3 : σ) (g r : Response) (e : RecordEntry) (es : Record)
    (v : GoString) (vs : List GoString) (ip : GoString) (b : Byte)
    (hurl : L.parseURL (url ++ str "/" ++ sub) = some u)
    (hget : W.clientDo s (readRequest c u) = (some g, s1))
    (hdec : L.jsonUnmarshal g.Body = some (e :: es))
    (hval : e.RrsetValues = v :: vs)
    (hres : W.httpGet s1 c.IP_RESOLVER_URL = (some r, s2))
    (hbody : r.Body = ip ++ [b])
    (hne : v ≠ ip)
    (hput : W.clientDo s2 (writeRequest c u (putBody ip)) = (none, s3)) :
    updateRecordsBody W L c url sub s =
      ⟨.fatal, s3,
        [.clientDo (readRequest c u) (some g), .httpGet c.IP_RESOLVER_URL (some r),
         .clientDo (writeRequest c u (putBody ip)) none]⟩ := by
  unfold updateRecordsBody
  simp only []
  rw [NewAPIRequest_ok L c _ u hurl, bind_lift_ret,
    bind_eq_of_ret _ _ _ _ _ _ (callAPI_some W _ s s1 g hget)]
  simp only [unmarshalOrFatal, hdec, bind_lift_ret, index, List.getElem?_cons_zero, hval]
  rw [bind_eq_of_ret _ _ _ _ _ _ (checkCurrentIP_snoc W c v s1 s2 r ip b hres hbody)]
  have hd : decide (ip = v) = false := by simpa using fun h => hne h.symm
  simp only [hd, Bool.false_eq_true, if_false, marshalOrFatal_single, bind_lift_ret]
  rw [NewAPIRequestWithBody_ok L c _ u _ hurl, bind_lift_ret,
    bind_eq_of_fatal _ _ _ _ _ (callAPI_none W _ s2 s3 hput)]
  simp

theorem body_failed (s s1 s2 s3 : σ) (g r p : Response) (e : RecordEntry) (es : Record)
    (v : GoString) (vs : List GoString) (ip : GoString) (b : Byte)
    (hurl : L.parseURL (url ++ str "/" ++ sub) = some u)
    (hget : W.clientDo s (readRequest c u) = (some g, s1))
    (hdec : L.jsonUnmarshal g.Body = some (e :: es))
    (hval : e.RrsetValues = v :: vs)
    (hres : W.httpGet s1 c.IP_RESOLVER_URL = (some r, s2))
    (hbody : r.Body = ip ++ [b])
    (hne : v ≠ ip)
    (hput : W.clientDo s2 (writeRequest c u (putBody ip)) = (some p, s3))
    (hstatus : p.StatusCode ≠ 201) :
    updateRecordsBody W L c url sub s =
      ⟨.ret (.returned false), s3,
        [.clientDo (readRequest c u) (some g), .httpGet c.IP_RESOLVER_URL (some r),
         .clientDo (writeRequest c u (putBody ip)) (some p)]⟩ := by
  unfold updateRecordsBody
  simp only []
  rw [NewAPIRequest_ok L c _ u hurl, bind_lift_ret,
    bind_eq_of_ret _ _ _ _ _ _ (callAPI_some W _ s s1 g hget)]
  simp only [unmarshalOrFatal, hdec, bind_lift_ret, index, List.getElem?_cons_zero, hval]
  rw [bind_eq_of_ret _ _ _ _ _ _ (checkCurrentIP_snoc W c v s1 s2 r ip b hres hbody)]
  have hd : decide (ip = v) = false := by simpa using fun h => hne h.symm
  simp only [hd, Bool.false_eq_true, if_false, marshalOrFatal_single, bind_lift_ret]
  rw [NewAPIRequestWithBody_ok L c _ u _ hurl, bind_lift_ret,
    bind_eq_of_ret _ _ _ _ _ _ (callAPI_some W _ s2 s3 p hput)]
  simp [hstatus, Prog.pure]

theorem body_updated (s s1 s2 s3 : σ) (g r p : Response) (e : RecordEntry) (es : Record)
    (v : GoString) (vs : List GoString) (ip : GoString) (b : Byte)
    (hurl : L.parseURL (url ++ str "/" ++ sub) = some u)
    (hget : W.clientDo s (readRequest c u) = (some g, s1))
    (hdec : L.jsonUnmarshal g.Body = some (e :: es))
    (hval : e.RrsetValues = v :: vs)
    (hres : W.httpGet s1 c.IP_RESOLVER_URL = (some r, s2))
    (hbody : r.Body = ip ++ [b])
    (hne : v ≠ ip)
    (hput : W.clientDo s2 (writeRequest c u (putBody ip)) = (some p, s3))
    (hstatus : p.StatusCode = 201) :
    updateRecordsBody W L c url sub s =
      ⟨.ret .next, s3,
        [.clientDo (readRequest c u) (some g), .httpGet c.IP_RESOLVER_URL (some r),
         .clientDo (writeRequest c u (putBody ip)) (some p),
         .logPrintln (sub ++ str " \t[UPDATED]")]⟩ := by
  unfold updateRecordsBody
  simp only []
  rw [NewAPIRequest_ok L c _ u hurl, bind_lift_ret,
    bind_eq_of_ret _ _ _ _ _ _ (callAPI_some W _ s s1 g hget)]
  simp only [unmarshalOrFatal, hdec, bind_lift_ret, index, List.getElem?_cons_zero, hval]
  rw [bind_eq_of_ret _ _ _ _ _ _ (checkCurrentIP_snoc W c v s1 s2 r ip b hres hbody)]
  have hd : decide (ip = v) = false := by simpa using fun h => hne h.symm
  simp only [hd, Bool.false_eq_true, if_false, marshalOrFatal_single, bind_lift_ret]
  rw [NewAPIRequestWithBody_ok L c _ u _ hurl, bind_lift_ret,
    bind_eq_of_ret _ _ _ _ _ _ (callAPI_some W _ s2 s3 p hput)]
  simp [hstatus, Prog.pure, Prog.bind, logPrintln]

end scenarios

section loops
variable {σ : Type} (W : World σ) (L : Lib) (c : Config) (url : GoString)

/-- Every run of the loop body has one of ten shapes; a property that holds
of each shape holds of the run. -/
theorem body_cases (sub : GoString) (s : σ) (P : Result σ Flow → Prop)
    (c1 : L.parseURL (url ++ str "/" ++ sub) = none → P ⟨.fatal, s, []⟩)
    (c2 : ∀ u, L.parseURL (url ++ str "/" ++ sub) = some u → ∀ s1,
      P ⟨.fatal, s1, [.clientDo (readRequest c u) none]⟩)
    (c3 : ∀ u, L.parseURL (url ++ str "/" ++ sub) = some u → ∀ s1 g,
      P ⟨.fatal, s1, [.clientDo (readRequest c u) (some g)]⟩)
    (c4 : ∀ u, L.parseURL (url ++ str "/" ++ sub) = some u → ∀ s1 g,
      P ⟨.panic, s1, [.clientDo (readRequest c u) (some g)]⟩)
    (c5 : ∀ u, L.parseURL (url ++ str "/" ++ sub) = some u → ∀ s2 g,
      P ⟨.fatal, s2,
        [.clientDo (readRequest c u) (some g), .httpGet c.IP_RESOLVER_URL none]⟩)
    (c6 : ∀ u, L.parseURL (url ++ str "/" ++ sub) = some u → ∀ s2 g r, r.Body = [] →
      P ⟨.panic, s2,
        [.clientDo (readRequest c u) (some g), .httpGet c.IP_RESOLVER_URL (some r)]⟩)
    (c7 : ∀ u, L.parseURL (url ++ str "/" ++ sub) = some u → ∀ s2 g r, r.Body ≠ [] →
      P ⟨.ret .next, s2,
        [.clientDo (readRequest c u) (some g), .httpGet c.IP_RESOLVER_URL (some r),
         .logPrintln (sub ++ str " \t[OK]")]⟩)
    (c9 : ∀ u, L.parseURL (url ++ str "/" ++ sub) = some u → ∀ s3 g r ip b,
      r.Body = ip ++ [b] →
      P ⟨.fatal, s3,
        [.clientDo (readRequest c u) (some g), .httpGet c.IP_RESOLVER_URL (some r),
         .clientDo (writeRequest c u (putBody ip)) none]⟩)
    (c10 : ∀ u, L.parseURL (url ++ str "/" ++ sub) = some u → ∀ s3 g r ip b p,
      r.Body = ip ++ [b] → p.StatusCode ≠ 201 →
      P ⟨.ret (.returned false), s3,
        [.clientDo (readRequest c u) (some g), .httpGet c.IP_RESOLVER_URL (some r),
         .clientDo (writeRequest c u (putBody ip)) (some p)]⟩)
    (c11 : ∀ u, L.parseURL (url ++ str "/" ++ sub) = some u → ∀ s3 g r ip b p,
      r.Body = ip ++ [b] → p.StatusCode = 201 →
      P ⟨.ret .next, s3,
        [.clientDo (readRequest c u) (some g), .httpGet c.IP_RESOLVER_URL (some r),
         .clientDo (writeRequest c u (putBody ip)) (some p),
         .logPrintln (sub ++ str " \t[UPDATED]")]⟩) :
    P (updateRecordsBody W L c url sub s) := by
  rcases hurl : L.parseURL (url ++ str "/" ++ sub) with _ | u
  · rw [body_badGet W L c url sub s hurl]; exact c1 hurl
  rcases hget : W.clientDo s (readRequest c u) with ⟨_ | g, s1⟩
  · rw [body_getError W L c url sub u s s1 hurl hget]; exact c2 u hurl s1
  rcases hdec : L.jsonUnmarshal g.Body with _ | result
  · rw [body_badJson W L c url sub u s s1 g hurl hget hdec]; exact c3 u hurl s1 g
  rcases result with _ | ⟨e, es⟩
  · rw [body_noValue W L c url sub u s s1 g [] hurl hget hdec (Or.inl rfl)]
    exact c4 u hurl s1 g
  rcases hval : e.RrsetValues with _ | ⟨v, vs⟩
  · rw [body_noValue W L c url sub u s s1 g (e :: es) hurl hget hdec
      (Or.inr ⟨e, es, rfl, hval⟩)]
    exact c4 u hurl s1 g
  rcases hres : W.httpGet s1 c.IP_RESOLVER_URL with ⟨_ | r, s2⟩
  · rw [body_resolverError W L c url sub u s s1 s2 g e es v vs hurl hget hdec hval hres]
    exact c5 u hurl s2 g
  by_cases hb : r.Body = []
  · rw [body_emptyBody W L c url sub u s s1 s2 g r e es v vs hurl hget hdec hval hres hb]
    exact c6 u hurl s2 g r hb
  obtain ⟨ip, b, hbody⟩ : ∃ ip b, r.Body = ip ++ [b] :=
    ⟨r.Body.dropLast, r.Body.getLast hb, (List.dropLast_append_getLast hb).symm⟩
  by_cases heq : v = ip
  · rw [body_unchanged W L c url sub u s s1 s2 g r e es v vs ip b hurl hget hdec hval hres
      hbody heq]
    exact c7 u hurl s2 g r hb
  rcases hput : W.clientDo s2 (writeRequest c u (putBody ip)) with ⟨_ | p, s3⟩
  · rw [body_putError W L c url sub u s s1 s2 s3 g r e es v vs ip b hurl hget hdec hval hres
      hbody heq hput]
    exact c9 u hurl s3 g r ip b hbody
  by_cases hst : p.StatusCode = 201
  · rw [body_updated W L c url sub u s s1 s2 s3 g r p e es v vs ip b hurl hget hdec hval hres
      hbody heq hput hst]
    exact c11 u hurl s3 g r ip b p hbody hst
  · rw [body_failed W L c url sub u s s1 s2 s3 g r p e es v vs ip b hurl hget hdec hval hres
      hbody heq hput hst]
    exact c10 u hurl s3 g r ip b p hbody hst

/-- The loop body never makes `updateRecords` return `true`. -/
theorem body_not_returned_true (sub : GoString) (s : σ) :
    (updateRecordsBody W L c url sub s).out ≠ .ret (.returned true) := by
  apply body_cases W L c url sub s (fun r => r.out ≠ .ret (.returned true)) <;> simp

theorem loop_nil (s : σ) : updateRecordsLoop W L c url [] s = ⟨.ret true, s, []⟩ := rfl

theorem loop_cons_next (sub : GoString) (rest : List GoString) (s s1 : σ) (ev : List Event)
    (h : updateRecordsBody W L c url sub s = ⟨.ret .next, s1, ev⟩) :
    updateRecordsLoop W L c url (sub :: rest) s =
      ⟨(updateRecordsLoop W L c url rest s1).out, (updateRecordsLoop W L c url rest s1).world,
        ev ++ (updateRecordsLoop W L c url rest s1).events⟩ := by
  show Prog.bind _ _ s = _
  rw [bind_eq_of_ret _ _ _ _ _ _ h]

theorem loop_cons_returned (sub : GoString) (rest : List GoString) (s s1 : σ)
    (ev : List Event) (b : Bool)
    (h : updateRecordsBody W L c url sub s = ⟨.ret (.returned b), s1, ev⟩) :
    updateRecordsLoop W L c url (sub :: rest) s = ⟨.ret b, s1, ev⟩ := by
  show Prog.bind _ _ s = _
  rw [bind_eq_of_ret _ _ _ _ _ _ h]
  simp [Prog.pure]

theorem loop_cons_fatal (sub : GoString) (rest : List GoString) (s s1 : σ) (ev : List Event)
    (h : updateRecordsBody W L c url sub s = ⟨.fatal, s1, ev⟩) :
    updateRecordsLoop W L c url (sub :: rest) s = ⟨.fatal, s1, ev⟩ := by
  show Prog.bind _ _ s = _
  rw [bind_eq_of_fatal _ _ _ _ _ h]

theorem loop_cons_panic (sub : GoString) (rest : List GoString) (s s1 : σ) (ev : List Event)
    (h : updateRecordsBody W L c url sub s = ⟨.panic, s1, ev⟩) :
    updateRecordsLoop W L c url (sub :: rest) s = ⟨.panic, s1, ev⟩ := by
  show Prog.bind _ _ s = _
  rw [bind_eq_of_panic _ _ _ _ _ h]

/-- When the loop over `pre` runs to its end, the loop over `pre ++ post`
is the loop over `pre` followed by the loop over `post`. -/
theorem loop_append (pre post : List GoString) (s : σ)
    (h : (updateRecordsLoop W L c url pre s).out = .ret true) :
    updateRecordsLoop W L c url (pre ++ post) s =
      ⟨(updateRecordsLoop W L c url post (updateRecordsLoop W L c url pre s).world).out,
        (updateRecordsLoop W L c url post (updateRecordsLoop W L c url pre s).world).world,
        (updateRecordsLoop W L c url pre s).events ++
          (updateRecordsLoop W L c url post (updateRecordsLoop W L c url pre s).world).events⟩ := by
  induction pre generalizing s with
  | nil => simp [loop_nil]
  | cons x xs ih =>
    have hne := body_not_returned_true W L c url x s
    rcases hb : updateRecordsBody W L c url x s with ⟨o, s1, ev⟩
    rcases o with (f | _ | _)
    · cases f with
      | next =>
        rw [loop_cons_next W L c url x xs s s1 ev hb] at h
        rw [List.cons_append, loop_cons_next W L c url x (xs ++ post) s s1 ev hb,
          loop_cons_next W L c url x xs s s1 ev hb, ih s1 h]
        simp
      | returned b =>
        rw [loop_cons_returned W L c url x xs s s1 ev b hb] at h
        rw [hb] at hne
        simp at h hne
        simp [h] at hne
    · rw [loop_cons_fatal W L c url x xs s s1 ev hb] at h
      simp at h
    · rw [loop_cons_panic W L c url x xs s s1 ev hb] at h
      simp at h

end loops

section runs
variable {σ : Type} (W : World σ) (L : Lib) (c : Config) (url : GoString)

theorem run_reaches_next (pre post : List GoString) (sub : GoString) (s0 s1 : σ)
    (ev : List Event)
    (hsub : c.SUBDOMAINS = pre ++ sub :: post)
    (hpre : (updateRecordsLoop W L c url pre s0).out = .ret true)
    (hb : updateRecordsBody W L c url sub (updateRecordsLoop W L c url pre s0).world =
      ⟨.ret .next, s1, ev⟩) :
    updateRecords W L c url s0 =
      ⟨(updateRecordsLoop W L c url post s1).out, (updateRecordsLoop W L c url post s1).world,
        (updateRecordsLoop W L c url pre s0).events ++ ev ++
          (updateRecordsLoop W L c url post s1).events⟩ := by
  unfold updateRecords
  rw [hsub, loop_append W L c url pre (sub :: post) s0 hpre,
    loop_cons_next W L c url sub post _ s1 ev hb]
  simp

theorem run_reaches_returned (pre post : List GoString) (sub : GoString) (s0 s1 : σ)
    (ev : List Event) (b : Bool)
    (hsub : c.SUBDOMAINS = pre ++ sub :: post)
    (hpre : (updateRecordsLoop W L c url pre s0).out = .ret true)
    (hb : updateRecordsBody W L c url sub (updateRecordsLoop W L c url pre s0).world =
      ⟨.ret (.returned b), s1, ev⟩) :
    updateRecords W L c url s0 =
      ⟨.ret b, s1, (updateRecordsLoop W L c url pre s0).events ++ ev⟩ := by
  unfold updateRecords
  rw [hsub, loop_append W L c url pre (sub :: post) s0 hpre,
    loop_cons_returned W L c url sub post _ s1 ev b hb]

theorem run_reaches_panic (pre post : List GoString) (sub : GoString) (s0 s1 : σ)
    (ev : List Event)
    (hsub : c.SUBDOMAINS = pre ++ sub :: post)
    (hpre : (updateRecordsLoop W L c url pre s0).out = .ret true)
    (hb : updateRecordsBody W L c url sub (updateRecordsLoop W L c url pre s0).world =
      ⟨.panic, s1, ev⟩) :
    updateRecords W L c url s0 =
      ⟨.panic, s1, (updateRecordsLoop W L c url pre s0).events ++ ev⟩ := by
  unfold updateRecords
  rw [hsub, loop_append W L c url pre (sub :: post) s0 hpre,
    loop_cons_panic W L c url sub post _ s1 ev hb]

end runs

theorem str_newline : str "\n" = [0x0a] := by decide

theorem get_ne_put : str "GET" ≠ str "PUT" := by decide

/-! ## Invariants of a run -/

section invariants
variable {σ : Type} (W : World σ) (L : Lib) (c : Config) (url : GoString)

/-- When the loop body goes on to the next subdomain, none of its PUTs was
rejected. -/
theorem body_next_no_rejected (sub : GoString) (s : σ)
    (h : (updateRecordsBody W L c url sub s).out = .ret .next) :
    ∀ e ∈ (updateRecordsBody W L c url sub s).events, e.isRejectedPut = false := by
  revert h
  apply body_cases W L c url sub s (fun r => r.out = .ret .next →
    ∀ e ∈ r.events, e.isRejectedPut = false)
  all_goals simp +contextual [Event.isRejectedPut, readRequest, writeRequest, get_ne_put]

/-- When the loop body makes `updateRecords` return, it returns `false` and
one of its PUTs was rejected. -/
theorem body_returned_rejected (sub : GoString) (s : σ) (b : Bool)
    (h : (updateRecordsBody W L c url sub s).out = .ret (.returned b)) :
    b = false ∧ ∃ e ∈ (updateRecordsBody W L c url sub s).events, e.isRejectedPut = true := by
  revert h
  apply body_cases W L c url sub s (fun r => r.out = .ret (.returned b) →
    b = false ∧ ∃ e ∈ r.events, e.isRejectedPut = true)
  all_goals intros
  all_goals simp_all [Event.isRejectedPut, writeRequest]

/-- The loop returns `true` exactly when none of its PUTs was rejected. -/
theorem loop_true_iff (subs : List GoString) :
    ∀ (s : σ) (b : Bool), (updateRecordsLoop W L c url subs s).out = .ret b →
      (b = true ↔ ∀ e ∈ (updateRecordsLoop W L c url subs s).events,
        e.isRejectedPut = false) := by
  induction subs with
  | nil =>
    intro s b h
    simp [loop_nil] at h ⊢
    exact h
  | cons x xs ih =>
    intro s b h
    have hnext := body_next_no_rejected W L c url x s
    have hret := body_returned_rejected W L c url x s
    rcases hb : updateRecordsBody W L c url x s with ⟨o, s1, ev⟩
    rw [hb] at hnext hret
    rcases o with (f | _ | _)
    · cases f with
      | next =>
        rw [loop_cons_next W L c url x xs s s1 ev hb] at h ⊢
        have hev := hnext rfl
        have := ih s1 b h
        simp only [List.mem_append]
        constructor
        · intro hbt e he
          rcases he with he | he
          · exact hev e he
          · exact (this.mp hbt) e he
        · intro hall
          exact this.mpr (fun e he => hall e (Or.inr he))
      | returned b' =>
        rw [loop_cons_returned W L c url x xs s s1 ev b' hb] at h ⊢
        obtain ⟨hfalse, e, he, hrej⟩ := hret b' rfl
        simp only [Outcome.ret.injEq] at h
        subst h
        subst hfalse
        constructor
        · intro h; cases h
        · intro hall
          have := hall e he
          simp only at this hrej
          rw [hrej] at this
          cases this
    · rw [loop_cons_fatal W L c url x xs s s1 ev hb] at h
      simp at h
    · rw [loop_cons_panic W L c url x xs s s1 ev hb] at h
      simp at h

theorem rejected_is_put (e : Event) (h : e.isPut = false) : e.isRejectedPut = false := by
  cases e with
  | clientDo req reply =>
    cases reply with
    | none => rfl
    | some res =>
      simp only [Event.isPut, decide_eq_false_iff_not] at h
      simp [Event.isRejectedPut, h]
  | httpGet _ _ => rfl
  | logPrintln _ => rfl

end invariants

/-! ## Two runs side by side -/

section simulation
variable {σ₁ σ₂ : Type} (R : σ₁ → σ₂ → Prop)

theorem outRel_eq {α : Type} (o₁ o₂ : Outcome α) : OutRel Eq o₁ o₂ ↔ o₁ = o₂ := by
  cases o₁ <;> cases o₂ <;> simp [OutRel]

theorem bind_of_out_ret {σ α β : Type} (m : Prog σ α) (f : α → Prog σ β) (s : σ) (a : α)
    (h : (m s).out = .ret a) :
    Prog.bind m f s = ⟨(f a (m s).world).out, (f a (m s).world).world,
      (m s).events ++ (f a (m s).world).events⟩ := by
  simp [Prog.bind, h]

theorem bind_of_out_fatal {σ α β : Type} (m : Prog σ α) (f : α → Prog σ β) (s : σ)
    (h : (m s).out = .fatal) :
    Prog.bind m f s = ⟨.fatal, (m s).world, (m s).events⟩ := by
  simp [Prog.bind, h]

theorem bind_of_out_panic {σ α β : Type} (m : Prog σ α) (f : α → Prog σ β) (s : σ)
    (h : (m s).out = .panic) :
    Prog.bind m f s = ⟨.panic, (m s).world, (m s).events⟩ := by
  simp [Prog.bind, h]

theorem sim_bind {α β : Type} (Q : α → α → Prop) (Q' : β → β → Prop)
    (m₁ : Prog σ₁ α) (m₂ : Prog σ₂ α) (f₁ : α → Prog σ₁ β) (f₂ : α → Prog σ₂ β)
    (hm : Sim R Q m₁ m₂) (hf : ∀ a₁ a₂, Q a₁ a₂ → Sim R Q' (f₁ a₁) (f₂ a₂)) :
    Sim R Q' (Prog.bind m₁ f₁) (Prog.bind m₂ f₂) := by
  intro s₁ s₂ hs
  obtain ⟨ho, hw, he⟩ := hm s₁ s₂ hs
  rcases h₁ : (m₁ s₁).out with (a₁ | _ | _) <;> rcases h₂ : (m₂ s₂).out with (a₂ | _ | _) <;>
    rw [h₁, h₂] at ho <;> simp only [OutRel] at ho
  · obtain ⟨ho', hw', he'⟩ := hf a₁ a₂ ho _ _ hw
    rw [bind_of_out_ret m₁ f₁ s₁ a₁ h₁, bind_of_out_ret m₂ f₂ s₂ a₂ h₂]
    refine ⟨ho', hw', ?_⟩
    simp only [List.map_append, he, he']
  · rw [bind_of_out_fatal m₁ f₁ s₁ h₁, bind_of_out_fatal m₂ f₂ s₂ h₂]
    exact ⟨trivial, hw, he⟩
  · rw [bind_of_out_panic m₁ f₁ s₁ h₁, bind_of_out_panic m₂ f₂ s₂ h₂]
    exact ⟨trivial, hw, he⟩

theorem sim_lift {α : Type} (Q : α → α → Prop) (o₁ o₂ : Outcome α) (h : OutRel Q o₁ o₂) :
    Sim R Q (Prog.lift o₁ : Prog σ₁ α) (Prog.lift o₂ : Prog σ₂ α) := by
  intro s₁ s₂ hs
  exact ⟨h, hs, rfl⟩

theorem sim_lift_same {α : Type} (o : Outcome α) :
    Sim R Eq (Prog.lift o : Prog σ₁ α) (Prog.lift o : Prog σ₂ α) :=
  sim_lift R Eq o o ((outRel_eq o o).mpr rfl)

theorem sim_pure {α : Type} (a : α) :
    Sim R Eq (Prog.pure a : Prog σ₁ α) (Prog.pure a : Prog σ₂ α) := by
  intro s₁ s₂ hs
  exact ⟨rfl, hs, rfl⟩

theorem sim_logPrintln (msg : GoString) :
    Sim R Eq (logPrintln msg : Prog σ₁ Unit) (logPrintln msg : Prog σ₂ Unit) := by
  intro s₁ s₂ hs
  exact ⟨rfl, hs, rfl⟩

variable (W₁ : World σ₁) (W₂ : World σ₂) (L : Lib) (c : Config) (url : GoString)

theorem sim_callAPI (req : Request)
    (hdo : ∀ s₁ s₂ req, R s₁ s₂ →
      sameReply L (W₁.clientDo s₁ req).1 (W₂.clientDo s₂ req).1 ∧
        R (W₁.clientDo s₁ req).2 (W₂.clientDo s₂ req).2) :
    Sim R (fun p q => sameFirstValue L p.1 q.1 ∧ p.2 = q.2)
      (callAPI W₁ req) (callAPI W₂ req) := by
  intro s₁ s₂ hs
  obtain ⟨hr, hw⟩ := hdo s₁ s₂ req hs
  unfold callAPI
  rcases h₁ : W₁.clientDo s₁ req with ⟨_ | a, t₁⟩ <;>
    rcases h₂ : W₂.clientDo s₂ req with ⟨_ | b, t₂⟩ <;>
    rw [h₁, h₂] at hr hw <;> simp only [sameReply] at hr
  · exact ⟨trivial, hw, rfl⟩
  · exact ⟨⟨hr.2, hr.1⟩, hw, rfl⟩

theorem sim_checkCurrentIP (published : GoString)
    (hget : ∀ s₁ s₂ u, R s₁ s₂ →
      (W₁.httpGet s₁ u).1 = (W₂.httpGet s₂ u).1 ∧ R (W₁.httpGet s₁ u).2 (W₂.httpGet s₂ u).2) :
    Sim R Eq (checkCurrentIP W₁ c published) (checkCurrentIP W₂ c published) := by
  intro s₁ s₂ hs
  obtain ⟨hr, hw⟩ := hget s₁ s₂ c.IP_RESOLVER_URL hs
  unfold checkCurrentIP
  rcases h₁ : W₁.httpGet s₁ c.IP_RESOLVER_URL with ⟨r₁, t₁⟩
  rcases h₂ : W₂.httpGet s₂ c.IP_RESOLVER_URL with ⟨r₂, t₂⟩
  rw [h₁, h₂] at hr hw
  simp only at hr hw
  subst hr
  rcases r₁ with _ | res
  · exact ⟨trivial, hw, rfl⟩
  · simp only
    rcases sliceTo res.Body ((res.Body.length : Int) - 1) with (ipAddress | _ | _)
    · exact ⟨rfl, hw, rfl⟩
    · exact ⟨trivial, hw, rfl⟩
    · exact ⟨trivial, hw, rfl⟩

theorem sim_unmarshal (b₁ b₂ : GoString) (h : sameFirstValue L b₁ b₂) :
    OutRel (fun r₁ r₂ => firstValue r₁ = firstValue r₂)
      (unmarshalOrFatal L b₁) (unmarshalOrFatal L b₂) := by
  rcases h with rfl | ⟨r₁, r₂, h₁, h₂, hv⟩
  · unfold unmarshalOrFatal
    cases L.jsonUnmarshal b₁ <;> simp [OutRel]
  · simp [unmarshalOrFatal, h₁, h₂, OutRel, hv]

/-- The two index expressions `result[0].RrsetValues[0]` together: the
first value when there is one, a panic otherwise. -/
theorem bind_index_index {σ β : Type} (result : Record) (k : GoString → Prog σ β) (s : σ) :
    Prog.bind (Prog.lift (index result 0))
        (fun entry => Prog.bind (Prog.lift (index entry.RrsetValues 0)) k) s =
      match firstValue result with
      | some v => k v s
      | none => ⟨.panic, s, []⟩ := by
  rcases result with _ | ⟨e, es⟩
  · simp [index, firstValue]
  · rcases hv : e.RrsetValues with _ | ⟨v, vs⟩
    · simp [index, firstValue, hv]
    · simp [index, firstValue, hv]

theorem sim_body (sub : GoString)
    (hdo : ∀ s₁ s₂ req, R s₁ s₂ →
      sameReply L (W₁.clientDo s₁ req).1 (W₂.clientDo s₂ req).1 ∧
        R (W₁.clientDo s₁ req).2 (W₂.clientDo s₂ req).2)
    (hget : ∀ s₁ s₂ u, R s₁ s₂ →
      (W₁.httpGet s₁ u).1 = (W₂.httpGet s₂ u).1 ∧ R (W₁.httpGet s₁ u).2 (W₂.httpGet s₂ u).2) :
    Sim R Eq (updateRecordsBody W₁ L c url sub) (updateRecordsBody W₂ L c url sub) := by
  unfold updateRecordsBody
  simp only []
  apply sim_bind R Eq Eq _ _ _ _ (sim_lift_same R _)
  rintro getReq _ rfl
  apply sim_bind R _ Eq _ _ _ _ (sim_callAPI R W₁ W₂ L getReq hdo)
  rintro got₁ got₂ ⟨hgot, -⟩
  apply sim_bind R _ Eq _ _ _ _ (sim_lift R _ _ _ (sim_unmarshal L got₁.1 got₂.1 hgot))
  intro result₁ result₂ hres s₁ s₂ hs
  rw [bind_index_index, bind_index_index, hres]
  rcases firstValue result₂ with _ | published
  · exact ⟨trivial, hs, rfl⟩
  · revert s₁ s₂
    show Sim R Eq _ _
    apply sim_bind R Eq Eq _ _ _ _ (sim_checkCurrentIP R W₁ W₂ c published hget)
    rintro chk _ rfl
    cases chk.1
    · simp only [Bool.false_eq_true, if_false]
      apply sim_bind R Eq Eq _ _ _ _ (sim_lift_same R _)
      rintro jsonRecord _ rfl
      apply sim_bind R Eq Eq _ _ _ _ (sim_lift_same R _)
      rintro putReq _ rfl
      apply sim_bind R _ Eq _ _ _ _ (sim_callAPI R W₁ W₂ L putReq hdo)
      rintro put₁ put₂ ⟨-, hstatus⟩
      rw [hstatus]
      by_cases h201 : put₂.2 = 201
      · simp only [h201, ne_eq, not_true_eq_false, if_false]
        apply sim_bind R Eq Eq _ _ _ _ (sim_logPrintln R _)
        rintro _ _ rfl
        exact sim_pure R _
      · simp only [ne_eq, h201, not_false_eq_true, if_true]
        exact sim_pure R _
    · simp only [if_true]
      apply sim_bind R Eq Eq _ _ _ _ (sim_logPrintln R _)
      rintro _ _ rfl
      exact sim_pure R _

theorem sim_loop (subs : List GoString)
    (hdo : ∀ s₁ s₂ req, R s₁ s₂ →
      sameReply L (W₁.clientDo s₁ req).1 (W₂.clientDo s₂ req).1 ∧
        R (W₁.clientDo s₁ req).2 (W₂.clientDo s₂ req).2)
    (hget : ∀ s₁ s₂ u, R s₁ s₂ →
      (W₁.httpGet s₁ u).1 = (W₂.httpGet s₂ u).1 ∧ R (W₁.httpGet s₁ u).2 (W₂.httpGet s₂ u).2) :
    Sim R Eq (updateRecordsLoop W₁ L c url subs) (updateRecordsLoop W₂ L c url subs) := by
  induction subs with
  | nil => exact sim_pure R true
  | cons x xs ih =>
    show Sim R Eq (Prog.bind _ _) (Prog.bind _ _)
    apply sim_bind R Eq Eq _ _ _ _ (sim_body R W₁ W₂ L c url x hdo hget)
    rintro f _ rfl
    cases f with
    | next => exact ih
    | returned b => exact sim_pure R b

end simulation

/-- Two tables with the same keys and related values give related answers. -/
theorem lookup_related {κ β : Type} [BEq κ] (P : Option β → Option β → Prop)
    (hnone : P none none) (t₁ t₂ : List (κ × β))
    (h : List.Forall₂ (fun a b => a.1 = b.1 ∧ P (some a.2) (some b.2)) t₁ t₂) (k : κ) :
    P (t₁.lookup k) (t₂.lookup k) := by
  induction h with
  | nil => exact hnone
  | @cons a b l₁ l₂ hab _ ih =>
    obtain ⟨a₁, a₂⟩ := a
    obtain ⟨b₁, b₂⟩ := b
    obtain ⟨hk, hp⟩ := hab
    simp only at hk hp
    subst hk
    simp only [List.lookup]
    cases k == a₁
    · exact ih
    · exact hp

/-- The plain and the rich scenario answer every request alike, up to the
parts of the record sets other than the first value of the first entry. -/
theorem demo_rich_sameReply (req : Request) :
    sameReply richLib ((demoWorld 201).clientDo () req).1 (richWorld.clientDo () req).1 := by
  show sameReply richLib (List.lookup req _) (List.lookup req _)
  apply lookup_related (sameReply richLib) trivial
  refine List.Forall₂.cons ⟨rfl, rfl, Or.inr ⟨wwwRecord, wwwRichRecord, ?_, ?_, ?_⟩⟩
    (List.Forall₂.cons ⟨rfl, rfl, Or.inr ⟨apiRecord, apiRichRecord, ?_, ?_, ?_⟩⟩
      (List.Forall₂.cons ⟨rfl, rfl, Or.inl rfl⟩ List.Forall₂.nil))
  all_goals decide

/-! ## Runs against a provider that keeps what is written -/

section convergence
variable {σ : Type} (W : World σ) (L : Lib) (c : Config) (url : GoString)
  (U : GoString → GoString) (pub : σ → GoString → Option GoString) (ip : GoString)
  (b : Byte)

/-- Against a provider that keeps what is written and a resolver with a
constant reply, the loop runs to its end and leaves every subdomain it went
through publishing the resolved address. -/
theorem loop_converges
    (hok : ∀ sub ∈ c.SUBDOMAINS, L.parseURL (url ++ str "/" ++ sub) = some (U sub))
    (hread : ∀ s, ∀ sub ∈ c.SUBDOMAINS, ∀ v, pub s sub = some v →
      ∃ g s1 e es vs, W.clientDo s (readRequest c (U sub)) = (some g, s1) ∧
        L.jsonUnmarshal g.Body = some (e :: es) ∧ e.RrsetValues = v :: vs ∧ pub s1 = pub s)
    (hwrite : ∀ s, ∀ sub ∈ c.SUBDOMAINS,
      ∃ p s1, W.clientDo s (writeRequest c (U sub) (putBody ip)) = (some p, s1) ∧
        p.StatusCode = 201 ∧ pub s1 sub = some ip ∧ ∀ x, x ≠ sub → pub s1 x = pub s x)
    (hres : ∀ s, ∃ r s1, W.httpGet s c.IP_RESOLVER_URL = (some r, s1) ∧
      r.Body = ip ++ [b] ∧ pub s1 = pub s)
    (subs : List GoString) (hsubs : ∀ sub ∈ subs, sub ∈ c.SUBDOMAINS) :
    ∀ s, (∀ x ∈ c.SUBDOMAINS, (pub s x).isSome = true) →
      (updateRecordsLoop W L c url subs s).out = .ret true ∧
        (∀ x ∈ c.SUBDOMAINS, (pub (updateRecordsLoop W L c url subs s).world x).isSome = true) ∧
        (∀ x, pub s x = some ip → pub (updateRecordsLoop W L c url subs s).world x = some ip) ∧
        (∀ x ∈ subs, pub (updateRecordsLoop W L c url subs s).world x = some ip) := by
  induction subs with
  | nil =>
    intro s hinv
    rw [loop_nil]
    exact ⟨rfl, hinv, fun _ h => h, fun x hx => absurd hx (List.not_mem_nil x)⟩
  | cons sub rest ih =>
    intro s hinv
    have hmem : sub ∈ c.SUBDOMAINS := hsubs sub (List.mem_cons_self _ _)
    have ih' := ih (fun x hx => hsubs x (List.mem_cons_of_mem _ hx))
    have hurl := hok sub hmem
    obtain ⟨v, hv⟩ := Option.isSome_iff_exists.mp (hinv sub hmem)
    obtain ⟨g, s1, e, es, vs, hget, hdec, hval, hpub1⟩ := hread s sub hmem v hv
    obtain ⟨r, s2, hr, hbody, hpub2⟩ := hres s1
    by_cases heq : v = ip
    · have hb := body_unchanged W L c url sub (U sub) s s1 s2 g r e es v vs ip b hurl hget hdec hval
        hr hbody heq
      have hpub : pub s2 = pub s := hpub2.trans hpub1
      rw [loop_cons_next W L c url sub rest s s2 _ hb]
      obtain ⟨h1, h2, h3, h4⟩ := ih' s2 (by rw [hpub]; exact hinv)
      refine ⟨h1, h2, fun x hx => h3 x (by rw [hpub]; exact hx), ?_⟩
      intro x hx
      rcases List.mem_cons.mp hx with rfl | hx
      · exact h3 x (by rw [hpub, hv, heq])
      · exact h4 x hx
    · obtain ⟨p, s3, hput, hst, hpub3, hother⟩ := hwrite s2 sub hmem
      have hb := body_updated W L c url sub (U sub) s s1 s2 s3 g r p e es v vs ip b hurl hget hdec
        hval hr hbody heq hput hst
      have hpub : pub s2 = pub s := hpub2.trans hpub1
      have hkeep : ∀ x, pub s x = some ip → pub s3 x = some ip := by
        intro x hx
        by_cases hxs : x = sub
        · rw [hxs]; exact hpub3
        · rw [hother x hxs, hpub]; exact hx
      have hinv3 : ∀ x ∈ c.SUBDOMAINS, (pub s3 x).isSome = true := by
        intro x hx
        by_cases hxs : x = sub
        · rw [hxs, hpub3]; rfl
        · rw [hother x hxs, hpub]; exact hinv x hx
      rw [loop_cons_next W L c url sub rest s s3 _ hb]
      obtain ⟨h1, h2, h3, h4⟩ := ih' s3 hinv3
      refine ⟨h1, h2, fun x hx => h3 x (hkeep x hx), ?_⟩
      intro x hx
      rcases List.mem_cons.mp hx with rfl | hx
      · exact h3 x hpub3
      · exact h4 x hx

/-- When every subdomain already publishes the resolved address, the loop
runs to its end without a PUT. -/
theorem loop_settled
    (hok : ∀ sub ∈ c.SUBDOMAINS, L.parseURL (url ++ str "/" ++ sub) = some (U sub))
    (hread : ∀ s, ∀ sub ∈ c.SUBDOMAINS, ∀ v, pub s sub = some v →
      ∃ g s1 e es vs, W.clientDo s (readRequest c (U sub)) = (some g, s1) ∧
        L.jsonUnmarshal g.Body = some (e :: es) ∧ e.RrsetValues = v :: vs ∧ pub s1 = pub s)
    (hres : ∀ s, ∃ r s1, W.httpGet s c.IP_RESOLVER_URL = (some r, s1) ∧
      r.Body = ip ++ [b] ∧ pub s1 = pub s)
    (subs : List GoString) (hsubs : ∀ sub ∈ subs, sub ∈ c.SUBDOMAINS) :
    ∀ s, (∀ x ∈ subs, pub s x = some ip) →
      (updateRecordsLoop W L c url subs s).out = .ret true ∧
        ∀ e ∈ (updateRecordsLoop W L c url subs s).events, e.isPut = false := by
  induction subs with
  | nil =>
    intro s _
    simp [loop_nil]
  | cons sub rest ih =>
    intro s hall
    have hmem : sub ∈ c.SUBDOMAINS := hsubs sub (List.mem_cons_self _ _)
    have ih' := ih (fun x hx => hsubs x (List.mem_cons_of_mem _ hx))
    have hurl := hok sub hmem
    have hv : pub s sub = some ip := hall sub (List.mem_cons_self _ _)
    obtain ⟨g, s1, e, es, vs, hget, hdec, hval, hpub1⟩ := hread s sub hmem ip hv
    obtain ⟨r, s2, hr, hbody, hpub2⟩ := hres s1
    have hb := body_unchanged W L c url sub (U sub) s s1 s2 g r e es ip vs ip b hurl hget hdec hval
      hr hbody rfl
    have hpub : pub s2 = pub s := hpub2.trans hpub1
    rw [loop_cons_next W L c url sub rest s s2 _ hb]
    obtain ⟨h1, h2⟩ := ih' s2 (fun x hx => by
      rw [hpub]; exact hall x (List.mem_cons_of_mem _ hx))
    refine ⟨h1, ?_⟩
    intro ev hev
    simp only [List.mem_append, List.mem_cons, List.mem_singleton, List.not_mem_nil,
      or_false] at hev
    rcases hev with (rfl | rfl | rfl) | hev
    · simp [Event.isPut, readRequest, get_ne_put]
    · rfl
    · rfl
    · exact h2 ev hev

end convergence

/-- The URL texts of the configured subdomains parse and print back
unchanged. -/
theorem liveLib_parse (sub : GoString) (hsub : sub ∈ demoConfig.SUBDOMAINS) :
    liveLib.parseURL (demoConfig.URL ++ str "/" ++ sub) = some (demoURL sub) := by
  have hcases : sub = str "www" ∨ sub = str "api" := by
    simpa [demoConfig] using hsub
  rcases hcases with rfl | rfl <;> decide

/-- In every state `liveWorld` answers the GET of a configured subdomain with
a record set whose first value is the one it publishes. -/
theorem liveWorld_read (s : Bool) (sub : GoString) (hsub : sub ∈ demoConfig.SUBDOMAINS)
    (v : GoString) (hv : livePublished s sub = some v) :
    ∃ g s1 e es vs, liveWorld.clientDo s (readRequest demoConfig (demoURL sub)) =
        (some g, s1) ∧
      liveLib.jsonUnmarshal g.Body = some (e :: es) ∧ e.RrsetValues = v :: vs ∧
        livePublished s1 = livePublished s := by
  have hcases : sub = str "www" ∨ sub = str "api" := by
    simpa [demoConfig] using hsub
  rcases hcases with rfl | rfl
  · have hv' : v = str "198.51.100.9" := by
      have : livePublished s (str "www") = some (str "198.51.100.9") := by
        cases s <;> decide
      rw [this] at hv
      exact (Option.some.inj hv).symm
    subst hv'
    exact ⟨⟨200, wwwBody⟩, s, wwwEntry, [], [], by cases s <;> decide, by decide, by decide, rfl⟩
  · cases s
    · have hv' : v = str "198.51.100.1" := by
        have : livePublished false (str "api") = some (str "198.51.100.1") := by decide
        rw [this] at hv
        exact (Option.some.inj hv).symm
      subst hv'
      exact ⟨⟨200, apiBody⟩, false, apiEntry, [], [], by decide, by decide, by decide, rfl⟩
    · have hv' : v = str "198.51.100.9" := by
        have : livePublished true (str "api") = some (str "198.51.100.9") := by decide
        rw [this] at hv
        exact (Option.some.inj hv).symm
      subst hv'
      exact ⟨⟨200, apiNewBody⟩, true, apiNewEntry, [], [], by decide, by decide, by decide,
        rfl⟩

/-- In every state `liveWorld` answers the PUT of the resolved address for a
configured subdomain with 201 and from then on publishes the value the body
carries. -/
theorem liveWorld_write (s : Bool) (sub : GoString) (hsub : sub ∈ demoConfig.SUBDOMAINS) :
    ∃ p s1, liveWorld.clientDo s
        (writeRequest demoConfig (demoURL sub) (putBody (str "198.51.100.9"))) =
          (some p, s1) ∧
      p.StatusCode = 201 ∧ livePublished s1 sub = putValue (putBody (str "198.51.100.9")) ∧
        ∀ x, x ≠ sub → livePublished s1 x = livePublished s x := by
  have hcases : sub = str "www" ∨ sub = str "api" := by
    simpa [demoConfig] using hsub
  rcases hcases with rfl | rfl
  · exact ⟨⟨201, []⟩, s, by cases s <;> decide, rfl, by cases s <;> decide, fun _ _ => rfl⟩
  · refine ⟨⟨201, []⟩, true, by cases s <;> decide, rfl, by decide, ?_⟩
    intro x hx
    unfold livePublished
    simp only [hx, if_false]

/-! ## The claims -/

/-- C1: when the first value of the first entry of the record set fetched
for a subdomain equals the address returned by the resolver (its reply
without the final byte), the iteration for that subdomain is the GET, the
resolver call and the log line `[OK]`; it contains no PUT, and
`updateRecords` goes on with the next subdomain. -/
theorem unchanged_subdomain_no_put {σ : Type} (W : World σ) (L : Lib) (c : Config)
    (url : GoString) (pre post : List GoString) (sub u : GoString) (s0 s1 s2 : σ)
    (g r : Response) (e : RecordEntry) (es : Record) (v : GoString) (vs : List GoString)
    (ip : GoString) (b : Byte)
    (hsub : c.SUBDOMAINS = pre ++ sub :: post)
    (hpre : (updateRecordsLoop W L c url pre s0).out = .ret true)
    (hurl : L.parseURL (url ++ str "/" ++ sub) = some u)
    (hget : W.clientDo (updateRecordsLoop W L c url pre s0).world (readRequest c u) =
      (some g, s1))
    (hdec : L.jsonUnmarshal g.Body = some (e :: es))
    (hval : e.RrsetValues = v :: vs)
    (hres : W.httpGet s1 c.IP_RESOLVER_URL = (some r, s2))
    (hbody : r.Body = ip ++ [b])
    (heq : v = ip) :
    updateRecordsBody W L c url sub (updateRecordsLoop W L c url pre s0).world =
        ⟨.ret .next, s2,
          [.clientDo (readRequest c u) (some g), .httpGet c.IP_RESOLVER_URL (some r),
           .logPrintln (sub ++ str " \t[OK]")]⟩ ∧
      (∀ ev ∈ (updateRecordsBody W L c url sub
          (updateRecordsLoop W L c url pre s0).world).events, ev.isPut = false) ∧
      updateRecords W L c url s0 =
        ⟨(updateRecordsLoop W L c url post s2).out, (updateRecordsLoop W L c url post s2).world,
          (updateRecordsLoop W L c url pre s0).events ++
            [.clientDo (readRequest c u) (some g), .httpGet c.IP_RESOLVER_URL (some r),
             .logPrintln (sub ++ str " \t[OK]")] ++
            (updateRecordsLoop W L c url post s2).events⟩ := by
  have hb := body_unchanged W L c url sub u _ s1 s2 g r e es v vs ip b hurl hget hdec hval hres
    hbody heq
  refine ⟨hb, ?_, run_reaches_next W L c url pre post sub s0 s2 _ hsub hpre hb⟩
  rw [hb]
  intro ev hev
  simp only [List.mem_cons, List.mem_singleton, List.not_mem_nil, or_false] at hev
  rcases hev with rfl | rfl | rfl
  · simp [Event.isPut, readRequest, get_ne_put]
  · rfl
  · rfl

/-- C1 at the scenario of the specification: `www` publishes the resolved
address; its iteration issues no PUT and the run goes on to `api`. -/
theorem unchanged_subdomain_no_put_witness :
    (∀ ev ∈ (updateRecordsBody (demoWorld 201) demoLib demoConfig demoConfig.URL (str "www")
        ()).events, ev.isPut = false) ∧
      updateRecords (demoWorld 201) demoLib demoConfig demoConfig.URL () =
        ⟨(updateRecordsLoop (demoWorld 201) demoLib demoConfig demoConfig.URL [str "api"] ()).out,
          (), [] ++
            [.clientDo (readRequest demoConfig (demoURL (str "www"))) (some ⟨200, wwwBody⟩),
             .httpGet demoConfig.IP_RESOLVER_URL (some ⟨200, str "198.51.100.9\n"⟩),
             .logPrintln (str "www" ++ str " \t[OK]")] ++
            (updateRecordsLoop (demoWorld 201) demoLib demoConfig demoConfig.URL [str "api"]
              ()).events⟩ :=
  (unchanged_subdomain_no_put (demoWorld 201) demoLib demoConfig demoConfig.URL
    [] [str "api"] (str "www") (demoURL (str "www")) () () () ⟨200, wwwBody⟩ ⟨200, str "198.51.100.9\n"⟩
    wwwEntry [] (str "198.51.100.9") [] (str "198.51.100.9") 0x0a
    (by decide) (by decide) (by decide) (by decide) (by decide) (by decide) (by decide)
    (by decide) (by decide)).2

/-- C2, amended: when the fetched first value differs from the resolved
address and the PUT is answered with 201, the iteration issues exactly one
PUT, logs `[UPDATED]`, and `updateRecords` goes on with the next subdomain.
The body of the PUT is the JSON text with one item of type "A" and one value,
the resolved address written by `json.Marshal` between two quotes, byte by
byte: a double quote or backslash with a backslash before it; backspace,
form feed, newline, carriage return and tab as the two-character escapes b,
f, n, r, t; the other bytes below 0x20 and `<`, `>`, `&` as backslash, u, 0,
0 and two lower-case hexadecimal digits; every other ASCII byte as it is; a
byte that is not part of valid UTF-8 as U+FFFD (bytes EF BF BD); the line and
paragraph separators U+2028 and U+2029 as their six-character escapes; every
other rune as it is. When no byte of the address needs an escape the body is
exactly the text of the specification. -/
theorem changed_subdomain_one_put {σ : Type} (W : World σ) (L : Lib) (c : Config)
    (url : GoString) (pre post : List GoString) (sub u : GoString) (s0 s1 s2 s3 : σ)
    (g r p : Response) (e : RecordEntry) (es : Record) (v : GoString) (vs : List GoString)
    (ip : GoString) (b : Byte)
    (hsub : c.SUBDOMAINS = pre ++ sub :: post)
    (hpre : (updateRecordsLoop W L c url pre s0).out = .ret true)
    (hurl : L.parseURL (url ++ str "/" ++ sub) = some u)
    (hget : W.clientDo (updateRecordsLoop W L c url pre s0).world (readRequest c u) =
      (some g, s1))
    (hdec : L.jsonUnmarshal g.Body = some (e :: es))
    (hval : e.RrsetValues = v :: vs)
    (hres : W.httpGet s1 c.IP_RESOLVER_URL = (some r, s2))
    (hbody : r.Body = ip ++ [b])
    (hne : v ≠ ip)
    (hput : W.clientDo s2 (writeRequest c u (putBody ip)) = (some p, s3))
    (hstatus : p.StatusCode = 201) :
    updateRecordsBody W L c url sub (updateRecordsLoop W L c url pre s0).world =
        ⟨.ret .next, s3,
          [.clientDo (readRequest c u) (some g), .httpGet c.IP_RESOLVER_URL (some r),
           .clientDo (writeRequest c u (putBody ip)) (some p),
           .logPrintln (sub ++ str " \t[UPDATED]")]⟩ ∧
      ((updateRecordsBody W L c url sub
          (updateRecordsLoop W L c url pre s0).world).events.filter Event.isPut).length = 1 ∧
      updateRecords W L c url s0 =
        ⟨(updateRecordsLoop W L c url post s3).out, (updateRecordsLoop W L c url post s3).world,
          (updateRecordsLoop W L c url pre s0).events ++
            [.clientDo (readRequest c u) (some g), .httpGet c.IP_RESOLVER_URL (some r),
             .clientDo (writeRequest c u (putBody ip)) (some p),
             .logPrintln (sub ++ str " \t[UPDATED]")] ++
            (updateRecordsLoop W L c url post s3).events⟩ ∧
      putBody ip =
        str "\x7b\"items\":[\x7b\"rrset_type\":\"A\",\"rrset_values\":[\"" ++ escapeString ip ++
          str "\"]\x7d]\x7d" ∧
      escapeString [] = [] ∧
      (∀ (x : Byte) (rest : GoString), x = 0x22 ∨ x = 0x5c →
        escapeString (x :: rest) = [0x5c, x] ++ escapeString rest) ∧
      (∀ rest : GoString,
        escapeString (0x08 :: rest) = str "\\b" ++ escapeString rest ∧
        escapeString (0x0c :: rest) = str "\\f" ++ escapeString rest ∧
        escapeString (0x0a :: rest) = str "\\n" ++ escapeString rest ∧
        escapeString (0x0d :: rest) = str "\\r" ++ escapeString rest ∧
        escapeString (0x09 :: rest) = str "\\t" ++ escapeString rest) ∧
      (∀ (x : Byte) (rest : GoString),
        x.toNat < 0x20 ∨ x = 0x3c ∨ x = 0x3e ∨ x = 0x26 →
        x ∉ [(0x08 : Byte), 0x0c, 0x0a, 0x0d, 0x09] →
        escapeString (x :: rest) =
          str "\\u00" ++ [(str "0123456789abcdef").getD (x.toNat / 16) 0,
            (str "0123456789abcdef").getD (x.toNat % 16) 0] ++ escapeString rest) ∧
      (∀ (x : Byte) (rest : GoString), 0x20 ≤ x.toNat → x.toNat < 0x80 →
        x ∉ [(0x22 : Byte), 0x5c, 0x3c, 0x3e, 0x26] →
        escapeString (x :: rest) = x :: escapeString rest) ∧
      (∀ (x : Byte) (rest : GoString), 0x80 ≤ x.toNat →
        DecodeRuneInString (x :: rest) = (RuneError, 1) →
        escapeString (x :: rest) = [0xEF, 0xBF, 0xBD] ++ escapeString rest) ∧
      (∀ (x : Byte) (rest : GoString), 0x80 ≤ x.toNat →
        DecodeRuneInString (x :: rest) ≠ (RuneError, 1) →
        ((DecodeRuneInString (x :: rest)).1 = 0x2028 →
          escapeString (x :: rest) = str "\\u2028" ++
            escapeString ((x :: rest).drop (DecodeRuneInString (x :: rest)).2)) ∧
        ((DecodeRuneInString (x :: rest)).1 = 0x2029 →
          escapeString (x :: rest) = str "\\u2029" ++
            escapeString ((x :: rest).drop (DecodeRuneInString (x :: rest)).2)) ∧
        ((DecodeRuneInString (x :: rest)).1 ≠ 0x2028 →
          (DecodeRuneInString (x :: rest)).1 ≠ 0x2029 →
          escapeString (x :: rest) =
            (x :: rest).take (DecodeRuneInString (x :: rest)).2 ++
              escapeString ((x :: rest).drop (DecodeRuneInString (x :: rest)).2))) ∧
      ((∀ x ∈ ip, htmlSafeSet x = true) → putBody ip = literalPutBody ip) := by
  have hb := body_updated W L c url sub u _ s1 s2 s3 g r p e es v vs ip b hurl hget hdec hval
    hres hbody hne hput hstatus
  have hpair : ∀ d : Nat × Nat, d ≠ (RuneError, 1) → ¬(d.1 = RuneError ∧ d.2 = 1) := by
    rintro ⟨d1, d2⟩ hd ⟨h1, h2⟩
    simp only at h1 h2
    exact hd (by rw [h1, h2])
  refine ⟨hb, ?_, run_reaches_next W L c url pre post sub s0 s3 _ hsub hpre hb, ?_,
    escapeString_nil, escapeString_quote, escapeString_short, escapeString_hex,
    escapeString_plain, ?_, ?_, putBody_safe ip⟩
  · rw [hb]
    simp [List.filter, Event.isPut, readRequest, writeRequest, get_ne_put]
  · rw [putBody_eq]
    have h1 : str "\x7b\"items\":[\x7b\"rrset_type\":\"A\",\"rrset_values\":[\"" = putPrefix :=
      rfl
    have h2 : str "\"]\x7d]\x7d" = 0x22 :: putSuffix := by decide
    rw [h1, h2, List.append_assoc]
  · intro x rest hx hd
    exact escapeString_invalid x rest (by omega) (by rw [hd]; exact ⟨rfl, rfl⟩)
  · intro x rest hx hd
    have hd' := hpair _ hd
    refine ⟨(escapeString_line_separator x rest hx hd').1,
      (escapeString_line_separator x rest hx hd').2, ?_⟩
    intro h8 h9
    exact escapeString_copy x rest (by omega) hd' (by rintro (h | h) <;> contradiction)

/-- C2 (amended) at the scenario of the specification: `api` publishes
198.51.100.1, the resolver answers 198.51.100.9, the write is answered with
201; the body of the single PUT is exactly the text of the specification. -/
theorem changed_subdomain_one_put_witness :
    ((updateRecordsBody (demoWorld 201) demoLib demoConfig demoConfig.URL (str "api")
        (updateRecordsLoop (demoWorld 201) demoLib demoConfig demoConfig.URL [str "www"]
          ()).world).events.filter Event.isPut).length = 1 ∧
      putBody (str "198.51.100.9") =
        str "\x7b\"items\":[\x7b\"rrset_type\":\"A\",\"rrset_values\":[\"198.51.100.9\"]\x7d]\x7d" :=
  have h := changed_subdomain_one_put (demoWorld 201) demoLib demoConfig demoConfig.URL
    [str "www"] [] (str "api") (demoURL (str "api")) () () () () ⟨200, apiBody⟩
    ⟨200, str "198.51.100.9\n"⟩ ⟨201, []⟩ apiEntry [] (str "198.51.100.1") []
    (str "198.51.100.9") 0x0a
    (by decide) (by decide) (by decide) (by decide) (by decide) (by decide) (by decide)
    (by decide) (by decide) (by decide) (by decide)
  ⟨h.2.1, (h.2.2.2.2.2.2.2.2.2.2.2 (by decide)).trans (by decide)⟩

set_option maxRecDepth 100000 in
/-- C2 as stated fails: the resolver answers with the Latin-1 line
"Acc\xe8s refus\xe9", the published value differs, the PUT is answered with
201, and the single value in the body of the PUT is not the resolved text:
each byte that is not valid UTF-8 has been replaced by U+FFFD (bytes EF BF
BD), so the body is not the text of the specification with the resolved text
between the quotes. -/
theorem put_body_literal_counterexample :
    updateRecords latin1World demoLib latin1Config latin1Config.URL () =
        ⟨.ret true, (),
          [.clientDo (readRequest latin1Config (demoURL (str "api"))) (some ⟨200, apiBody⟩),
           .httpGet latin1Config.IP_RESOLVER_URL
              (some ⟨200, str "Acc" ++ [0xe8] ++ str "s refus" ++ [0xe9] ++ str "\n"⟩),
           .clientDo (writeRequest latin1Config (demoURL (str "api"))
              (str "\x7b\"items\":[\x7b\"rrset_type\":\"A\",\"rrset_values\":[\"Acc" ++
                [0xEF, 0xBF, 0xBD] ++ str "s refus" ++ [0xEF, 0xBF, 0xBD] ++ str "\"]\x7d]\x7d"))
              (some ⟨201, []⟩),
           .logPrintln (str "api \t[UPDATED]")]⟩ ∧
      apiEntry.RrsetValues.head? ≠ some (str "Acc" ++ [0xe8] ++ str "s refus" ++ [0xe9]) ∧
      str "\x7b\"items\":[\x7b\"rrset_type\":\"A\",\"rrset_values\":[\"Acc" ++
          [0xEF, 0xBF, 0xBD] ++ str "s refus" ++ [0xEF, 0xBF, 0xBD] ++ str "\"]\x7d]\x7d" ≠
        literalPutBody (str "Acc" ++ [0xe8] ++ str "s refus" ++ [0xe9]) := by
  decide

/-- C3: when the PUT issued for a subdomain is answered with a status other
than 201, `updateRecords` returns `false` right after that PUT: the run is
the run on the subdomains up to and including that one, and nothing is
requested for the subdomains after it. -/
theorem rejected_put_stops_run {σ : Type} (W : World σ) (L : Lib) (c : Config)
    (url : GoString) (pre post : List GoString) (sub u : GoString) (s0 s1 s2 s3 : σ)
    (g r p : Response) (e : RecordEntry) (es : Record) (v : GoString) (vs : List GoString)
    (ip : GoString) (b : Byte)
    (hsub : c.SUBDOMAINS = pre ++ sub :: post)
    (hpre : (updateRecordsLoop W L c url pre s0).out = .ret true)
    (hurl : L.parseURL (url ++ str "/" ++ sub) = some u)
    (hget : W.clientDo (updateRecordsLoop W L c url pre s0).world (readRequest c u) =
      (some g, s1))
    (hdec : L.jsonUnmarshal g.Body = some (e :: es))
    (hval : e.RrsetValues = v :: vs)
    (hres : W.httpGet s1 c.IP_RESOLVER_URL = (some r, s2))
    (hbody : r.Body = ip ++ [b])
    (hne : v ≠ ip)
    (hput : W.clientDo s2 (writeRequest c u (putBody ip)) = (some p, s3))
    (hstatus : p.StatusCode ≠ 201) :
    updateRecords W L c url s0 =
        ⟨.ret false, s3,
          (updateRecordsLoop W L c url pre s0).events ++
            [.clientDo (readRequest c u) (some g), .httpGet c.IP_RESOLVER_URL (some r),
             .clientDo (writeRequest c u (putBody ip)) (some p)]⟩ ∧
      updateRecords W L c url s0 = updateRecordsLoop W L c url (pre ++ [sub]) s0 := by
  have hb := body_failed W L c url sub u _ s1 s2 s3 g r p e es v vs ip b hurl hget hdec hval
    hres hbody hne hput hstatus
  have hrun := run_reaches_returned W L c url pre post sub s0 s3 _ false hsub hpre hb
  refine ⟨hrun, ?_⟩
  rw [hrun, loop_append W L c url pre [sub] s0 hpre,
    loop_cons_returned W L c url sub [] _ s3 _ false hb]

/-- C3 at the failure scenario of the specification, with a third subdomain
after `api`: the write for `api` is answered with 500, the run returns
`false` and ends with that PUT. -/
theorem rejected_put_stops_run_witness :
    updateRecords (demoWorld 500) demoLib
        { demoConfig with SUBDOMAINS := [str "www", str "api", str "mail"] }
        demoConfig.URL () =
      ⟨.ret false, (),
        (updateRecordsLoop (demoWorld 500) demoLib
            { demoConfig with SUBDOMAINS := [str "www", str "api", str "mail"] }
            demoConfig.URL [str "www"] ()).events ++
          [.clientDo (readRequest demoConfig (demoURL (str "api"))) (some ⟨200, apiBody⟩),
           .httpGet demoConfig.IP_RESOLVER_URL (some ⟨200, str "198.51.100.9\n"⟩),
           .clientDo (writeRequest demoConfig (demoURL (str "api"))
              (putBody (str "198.51.100.9"))) (some ⟨500, []⟩)]⟩ :=
  (rejected_put_stops_run (demoWorld 500) demoLib
    { demoConfig with SUBDOMAINS := [str "www", str "api", str "mail"] } demoConfig.URL
    [str "www"] [str "mail"] (str "api") (demoURL (str "api")) () () () () ⟨200, apiBody⟩
    ⟨200, str "198.51.100.9\n"⟩ ⟨500, []⟩ apiEntry [] (str "198.51.100.1") []
    (str "198.51.100.9") 0x0a
    (by decide) (by decide) (by decide) (by decide) (by decide) (by decide) (by decide)
    (by decide) (by decide) (by decide) (by decide)).1

/-- C4: for every run of `updateRecords` that returns (no `log.Fatalln`, no
panic), the returned boolean is `true` exactly when no PUT of the run was
answered with a status other than 201; it is `true` for an empty subdomain
list, and whenever the run issued no PUT at all. -/
theorem returns_true_iff_no_rejected_put {σ : Type} (W : World σ) (L : Lib) (c : Config)
    (url : GoString) (s0 : σ) :
    (∀ b, (updateRecords W L c url s0).out = .ret b →
        (b = true ↔ ∀ e ∈ (updateRecords W L c url s0).events, e.isRejectedPut = false)) ∧
      (c.SUBDOMAINS = [] → updateRecords W L c url s0 = ⟨.ret true, s0, []⟩) ∧
      (∀ b, (updateRecords W L c url s0).out = .ret b →
        (∀ e ∈ (updateRecords W L c url s0).events, e.isPut = false) → b = true) := by
  refine ⟨loop_true_iff W L c url c.SUBDOMAINS s0, ?_, ?_⟩
  · intro h
    unfold updateRecords
    rw [h]
    rfl
  · intro b hb hall
    exact (loop_true_iff W L c url c.SUBDOMAINS s0 b hb).mpr
      (fun e he => rejected_is_put e (hall e he))

/-- C4 at the two scenarios of the specification: with the write answered
201 the run returns `true` and no PUT was rejected; with the write answered
500 the run returns `false` and a PUT was rejected; with no subdomain the run
returns `true`. -/
theorem returns_true_iff_no_rejected_put_witness :
    ((updateRecords (demoWorld 201) demoLib demoConfig demoConfig.URL ()).out = .ret true ∧
        ∀ e ∈ (updateRecords (demoWorld 201) demoLib demoConfig demoConfig.URL ()).events,
          e.isRejectedPut = false) ∧
      ((updateRecords (demoWorld 500) demoLib demoConfig demoConfig.URL ()).out = .ret false ∧
        ¬ ∀ e ∈ (updateRecords (demoWorld 500) demoLib demoConfig demoConfig.URL ()).events,
          e.isRejectedPut = false) ∧
      updateRecords (demoWorld 201) demoLib { demoConfig with SUBDOMAINS := [] }
        demoConfig.URL () = ⟨.ret true, (), []⟩ :=
  ⟨⟨by decide,
      ((returns_true_iff_no_rejected_put (demoWorld 201) demoLib demoConfig demoConfig.URL
        ()).1 true (by decide)).mp rfl⟩,
    ⟨by decide,
      fun h => Bool.false_ne_true
        (((returns_true_iff_no_rejected_put (demoWorld 500) demoLib demoConfig demoConfig.URL
          ()).1 false (by decide)).mpr h)⟩,
    (returns_true_iff_no_rejected_put (demoWorld 201) demoLib
      { demoConfig with SUBDOMAINS := [] } demoConfig.URL ()).2.1 rfl⟩

/-- C5: when the resolver answers with `s` followed by one newline,
`checkCurrentIP` returns `s` as the current address, byte for byte, and its
boolean is `true` exactly when `s` equals the published value passed in; in
particular a reply ending in two newlines keeps one of them. -/
theorem checkCurrentIP_strips_one_newline {σ : Type} (W : World σ) (c : Config)
    (published s : GoString) (st st1 : σ) (res : Response)
    (hres : W.httpGet st c.IP_RESOLVER_URL = (some res, st1))
    (hbody : res.Body = s ++ str "\n") :
    checkCurrentIP W c published st =
        ⟨.ret (decide (s = published), s), st1, [.httpGet c.IP_RESOLVER_URL (some res)]⟩ ∧
      (decide (s = published) = true ↔ s = published) ∧
      (∀ t, s = t ++ str "\n" →
        (checkCurrentIP W c published st).out =
          .ret (decide (t ++ str "\n" = published), t ++ str "\n")) := by
  rw [str_newline] at hbody
  have h := checkCurrentIP_snoc W c published st st1 res s 0x0a hres hbody
  refine ⟨h, by simp, ?_⟩
  intro t ht
  rw [h, ht]

/-- C5 at the example of the specification: the reply "203.0.113.7\n" gives
"203.0.113.7". -/
theorem checkCurrentIP_strips_one_newline_witness :
    checkCurrentIP (tableWorld [] (some ⟨200, str "203.0.113.7\n"⟩)) demoConfig
        (str "198.51.100.1") () =
      ⟨.ret (decide (str "203.0.113.7" = str "198.51.100.1"), str "203.0.113.7"), (),
        [.httpGet demoConfig.IP_RESOLVER_URL (some ⟨200, str "203.0.113.7\n"⟩)]⟩ :=
  (checkCurrentIP_strips_one_newline (tableWorld [] (some ⟨200, str "203.0.113.7\n"⟩))
    demoConfig (str "198.51.100.1") (str "203.0.113.7") () () ⟨200, str "203.0.113.7\n"⟩
    (by decide) (by decide)).1

/-- C6: when the reply fetched for a subdomain decodes to a record set with
no entry, or to one whose first entry has no value, the run ends in a
run-time panic at that subdomain: `updateRecords` returns neither `true` nor
`false`, and after the GET of that subdomain nothing more is requested: no
resolver call and no PUT for it or for a later subdomain. -/
theorem missing_first_value_panics {σ : Type} (W : World σ) (L : Lib) (c : Config)
    (url : GoString) (pre post : List GoString) (sub u : GoString) (s0 s1 : σ)
    (g : Response) (result : Record)
    (hsub : c.SUBDOMAINS = pre ++ sub :: post)
    (hpre : (updateRecordsLoop W L c url pre s0).out = .ret true)
    (hurl : L.parseURL (url ++ str "/" ++ sub) = some u)
    (hget : W.clientDo (updateRecordsLoop W L c url pre s0).world (readRequest c u) =
      (some g, s1))
    (hdec : L.jsonUnmarshal g.Body = some result)
    (hnone : result = [] ∨ ∃ e es, result = e :: es ∧ e.RrsetValues = []) :
    updateRecords W L c url s0 =
        ⟨.panic, s1,
          (updateRecordsLoop W L c url pre s0).events ++
            [.clientDo (readRequest c u) (some g)]⟩ ∧
      (∀ b, (updateRecords W L c url s0).out ≠ .ret b) ∧
      (∀ ev ∈ (updateRecordsBody W L c url sub
          (updateRecordsLoop W L c url pre s0).world).events,
        ev.isPut = false ∧ ev.isResolverCall = false) := by
  have hb := body_noValue W L c url sub u _ s1 g result hurl hget hdec hnone
  have hrun := run_reaches_panic W L c url pre post sub s0 s1 _ hsub hpre hb
  refine ⟨hrun, ?_, ?_⟩
  · intro b
    rw [hrun]
    simp
  · rw [hb]
    intro ev hev
    simp only [List.mem_singleton] at hev
    subst hev
    simp [Event.isPut, Event.isResolverCall, readRequest, get_ne_put]

/-- C6 for a provider that answers the GET for `www` with the empty JSON
array: the run panics after that GET. -/
theorem missing_first_value_panics_witness :
    updateRecords noRecordWorld noRecordLib demoConfig demoConfig.URL () =
      ⟨.panic, (),
        [.clientDo (readRequest demoConfig (demoURL (str "www")))
          (some ⟨200, str "[]"⟩)]⟩ :=
  (missing_first_value_panics noRecordWorld noRecordLib demoConfig demoConfig.URL
    [] [str "api"] (str "www") (demoURL (str "www")) () () ⟨200, str "[]"⟩ []
    (by decide) (by decide) (by decide) (by decide) (by decide) (Or.inl rfl)).1

/-- C8: two runs of `updateRecords` against worlds that answer alike, except
that the bodies fetched from the provider may differ in everything but the
first value of the first entry of the record set they decode to (other
entries, other values, name, type, TTL, href), issue the same sequence of
requests (GETs, resolver calls, PUTs with their bodies) and log lines, and
end in the same way with the same returned boolean. -/
theorem first_value_only {σ₁ σ₂ : Type} (W₁ : World σ₁) (W₂ : World σ₂) (L : Lib)
    (c : Config) (url : GoString) (R : σ₁ → σ₂ → Prop)
    (hdo : ∀ s₁ s₂ req, R s₁ s₂ →
      sameReply L (W₁.clientDo s₁ req).1 (W₂.clientDo s₂ req).1 ∧
        R (W₁.clientDo s₁ req).2 (W₂.clientDo s₂ req).2)
    (hget : ∀ s₁ s₂ u, R s₁ s₂ →
      (W₁.httpGet s₁ u).1 = (W₂.httpGet s₂ u).1 ∧ R (W₁.httpGet s₁ u).2 (W₂.httpGet s₂ u).2)
    (s₁ : σ₁) (s₂ : σ₂) (hs : R s₁ s₂) :
    (updateRecords W₁ L c url s₁).out = (updateRecords W₂ L c url s₂).out ∧
      (updateRecords W₁ L c url s₁).events.map Event.action =
        (updateRecords W₂ L c url s₂).events.map Event.action ∧
      R (updateRecords W₁ L c url s₁).world (updateRecords W₂ L c url s₂).world := by
  obtain ⟨ho, hw, he⟩ := sim_loop R W₁ W₂ L c url c.SUBDOMAINS hdo hget s₁ s₂ hs
  exact ⟨(outRel_eq _ _).mp ho, he, hw⟩

/-- C8 at the scenario of the specification and the same scenario with
richer record sets: the two runs issue the same requests and both return
`true`. -/
theorem first_value_only_witness :
    (updateRecords (demoWorld 201) richLib demoConfig demoConfig.URL ()).out =
        (updateRecords richWorld richLib demoConfig demoConfig.URL ()).out ∧
      (updateRecords (demoWorld 201) richLib demoConfig demoConfig.URL ()).events.map
          Event.action =
        (updateRecords richWorld richLib demoConfig demoConfig.URL ()).events.map
          Event.action ∧
      (updateRecords (demoWorld 201) richLib demoConfig demoConfig.URL ()).events ≠
        (updateRecords richWorld richLib demoConfig demoConfig.URL ()).events :=
  have h := first_value_only (demoWorld 201) richWorld richLib demoConfig demoConfig.URL
    (fun _ _ => True)
    (fun _ _ req _ => ⟨demo_rich_sameReply req, trivial⟩)
    (fun _ _ _ _ => ⟨rfl, trivial⟩) () () trivial
  ⟨h.1, h.2.1, by decide⟩

/-- C9, amended: against a provider that serves, for every configured
subdomain, a record set whose first value is the value it publishes, that
answers the PUT of the run with 201 and from then on publishes, for that
subdomain only, the value a reader of JSON finds in the body of the PUT, and
a resolver that answers with the same non-empty body throughout: if every
configured subdomain publishes a first value at the start and the resolved
address is valid UTF-8, then the value the PUT carries is the resolved
address, `updateRecords` returns `true`, afterwards every configured
subdomain publishes the resolved address, and a second run right after
returns `true` without a PUT. -/
theorem converges_to_resolved_ip {σ : Type} (W : World σ) (L : Lib) (c : Config)
    (url : GoString) (U : GoString → GoString) (pub : σ → GoString → Option GoString)
    (ip : GoString) (b : Byte) (s0 : σ)
    (hvalid : validUTF8 ip = true)
    (hok : ∀ sub ∈ c.SUBDOMAINS, L.parseURL (url ++ str "/" ++ sub) = some (U sub))
    (hread : ∀ s, ∀ sub ∈ c.SUBDOMAINS, ∀ v, pub s sub = some v →
      ∃ g s1 e es vs, W.clientDo s (readRequest c (U sub)) = (some g, s1) ∧
        L.jsonUnmarshal g.Body = some (e :: es) ∧ e.RrsetValues = v :: vs ∧ pub s1 = pub s)
    (hwrite : ∀ s, ∀ sub ∈ c.SUBDOMAINS,
      ∃ p s1, W.clientDo s (writeRequest c (U sub) (putBody ip)) = (some p, s1) ∧
        p.StatusCode = 201 ∧ pub s1 sub = putValue (putBody ip) ∧
        ∀ x, x ≠ sub → pub s1 x = pub s x)
    (hres : ∀ s, ∃ r s1, W.httpGet s c.IP_RESOLVER_URL = (some r, s1) ∧
      r.Body = ip ++ [b] ∧ pub s1 = pub s)
    (hinit : ∀ sub ∈ c.SUBDOMAINS, (pub s0 sub).isSome = true) :
    putValue (putBody ip) = some ip ∧
      (updateRecords W L c url s0).out = .ret true ∧
      (∀ sub ∈ c.SUBDOMAINS, pub (updateRecords W L c url s0).world sub = some ip) ∧
      (updateRecords W L c url (updateRecords W L c url s0).world).out = .ret true ∧
      (∀ e ∈ (updateRecords W L c url (updateRecords W L c url s0).world).events,
        e.isPut = false) := by
  have hcarried := putValue_putBody ip hvalid
  have hwrite' : ∀ s, ∀ sub ∈ c.SUBDOMAINS,
      ∃ p s1, W.clientDo s (writeRequest c (U sub) (putBody ip)) = (some p, s1) ∧
        p.StatusCode = 201 ∧ pub s1 sub = some ip ∧ ∀ x, x ≠ sub → pub s1 x = pub s x := by
    intro s sub hsub
    obtain ⟨p, s1, h1, h2, h3, h4⟩ := hwrite s sub hsub
    exact ⟨p, s1, h1, h2, h3.trans hcarried, h4⟩
  obtain ⟨h1, -, -, h4⟩ := loop_converges W L c url U pub ip b hok hread hwrite' hres
    c.SUBDOMAINS (fun _ h => h) s0 hinit
  obtain ⟨h5, h6⟩ := loop_settled W L c url U pub ip b hok hread hres c.SUBDOMAINS
    (fun _ h => h) (updateRecords W L c url s0).world h4
  exact ⟨hcarried, h1, h4, h5, h6⟩

/-- C9 (amended) at the scenario of the specification with a provider that
remembers the write: the run returns `true`, `api` then publishes the
resolved address, and a second run issues no PUT. -/
theorem converges_to_resolved_ip_witness :
    putValue (putBody (str "198.51.100.9")) = some (str "198.51.100.9") ∧
      (updateRecords liveWorld liveLib demoConfig demoConfig.URL false).out = .ret true ∧
      (∀ sub ∈ demoConfig.SUBDOMAINS,
        livePublished (updateRecords liveWorld liveLib demoConfig demoConfig.URL false).world
          sub = some (str "198.51.100.9")) ∧
      (updateRecords liveWorld liveLib demoConfig demoConfig.URL
        (updateRecords liveWorld liveLib demoConfig demoConfig.URL false).world).out =
          .ret true ∧
      (∀ e ∈ (updateRecords liveWorld liveLib demoConfig demoConfig.URL
          (updateRecords liveWorld liveLib demoConfig demoConfig.URL false).world).events,
        e.isPut = false) :=
  converges_to_resolved_ip liveWorld liveLib demoConfig demoConfig.URL demoURL livePublished
    (str "198.51.100.9") 0x0a false
    (by decide)
    liveLib_parse
    liveWorld_read
    liveWorld_write
    (fun s => ⟨⟨200, str "198.51.100.9\n"⟩, s, rfl, by decide, rfl⟩)
    (by decide)

set_option maxRecDepth 100000 in
/-- C9 as stated fails: the provider holds 198.51.100.1 for `api`, answers
every PUT with 201 and from then on serves the value the PUT carried; the
resolver answers with the Latin-1 line "Acc\xe8s refus\xe9" throughout. The
first run returns `true` after one PUT; the value that PUT carries, which
the provider then serves, has U+FFFD in place of the two bytes that are not
valid UTF-8, so it is not the resolved text, and the second run issues a PUT
again. -/
theorem second_run_puts_again_counterexample :
    validUTF8 latin1Text = false ∧
      updateRecords (storingWorld (latin1Text ++ str "\n")) storingLib latin1Config
          latin1Config.URL (str "198.51.100.1") =
        ⟨.ret true, latin1Carried,
          [.clientDo (readRequest latin1Config (demoURL (str "api")))
              (some ⟨200, storedBody (str "198.51.100.1")⟩),
           .httpGet latin1Config.IP_RESOLVER_URL (some ⟨200, latin1Text ++ str "\n"⟩),
           .clientDo (writeRequest latin1Config (demoURL (str "api")) (putBody latin1Text))
              (some ⟨201, []⟩),
           .logPrintln (str "api \t[UPDATED]")]⟩ ∧
      putValue (putBody latin1Text) = some latin1Carried ∧
      storingLib.jsonUnmarshal (storedBody latin1Carried) =
        some [{ apiEntry with RrsetValues := [latin1Carried] }] ∧
      latin1Carried ≠ latin1Text ∧
      updateRecords (storingWorld (latin1Text ++ str "\n")) storingLib latin1Config
          latin1Config.URL latin1Carried =
        ⟨.ret true, latin1Carried,
          [.clientDo (readRequest latin1Config (demoURL (str "api")))
              (some ⟨200, storedBody latin1Carried⟩),
           .httpGet latin1Config.IP_RESOLVER_URL (some ⟨200, latin1Text ++ str "\n"⟩),
           .clientDo (writeRequest latin1Config (demoURL (str "api")) (putBody latin1Text))
              (some ⟨201, []⟩),
           .logPrintln (str "api \t[UPDATED]")]⟩ := by
  decide

/-- C10: `checkCurrentIP` yields a result exactly when the resolver answers
with a non-empty body. For a non-empty body the slice is in bounds and the
result is the body without its last byte; for the empty body the slice bound
is out of range and the call panics; in a run, the panic comes right after
the resolver call, so no PUT is issued for that subdomain. -/
theorem checkCurrentIP_result_iff_nonempty {σ : Type} (W : World σ) (L : Lib) (c : Config)
    (url : GoString) :
    (∀ (published : GoString) (s s1 : σ) (res : Response),
        W.httpGet s c.IP_RESOLVER_URL = (some res, s1) →
        sliceTo res.Body ((res.Body.length : Int) - 1) =
            (if res.Body = [] then .panic else .ret res.Body.dropLast) ∧
          checkCurrentIP W c published s =
            (if res.Body = [] then
              ⟨.panic, s1, [.httpGet c.IP_RESOLVER_URL (some res)]⟩
            else
              ⟨.ret (decide (res.Body.dropLast = published), res.Body.dropLast), s1,
                [.httpGet c.IP_RESOLVER_URL (some res)]⟩)) ∧
      (∀ (published : GoString) (s : σ),
        (∃ v, (checkCurrentIP W c published s).out = .ret v) ↔
          ∃ res, (W.httpGet s c.IP_RESOLVER_URL).1 = some res ∧ res.Body ≠ []) ∧
      (∀ (pre post : List GoString) (sub u : GoString) (s0 s1 s2 : σ) (g r : Response)
          (e : RecordEntry) (es : Record) (v : GoString) (vs : List GoString),
        c.SUBDOMAINS = pre ++ sub :: post →
        (updateRecordsLoop W L c url pre s0).out = .ret true →
        L.parseURL (url ++ str "/" ++ sub) = some u →
        W.clientDo (updateRecordsLoop W L c url pre s0).world (readRequest c u) =
          (some g, s1) →
        L.jsonUnmarshal g.Body = some (e :: es) →
        e.RrsetValues = v :: vs →
        W.httpGet s1 c.IP_RESOLVER_URL = (some r, s2) →
        r.Body = [] →
        updateRecords W L c url s0 =
            ⟨.panic, s2,
              (updateRecordsLoop W L c url pre s0).events ++
                [.clientDo (readRequest c u) (some g),
                 .httpGet c.IP_RESOLVER_URL (some r)]⟩ ∧
          ∀ ev ∈ (updateRecordsBody W L c url sub
              (updateRecordsLoop W L c url pre s0).world).events, ev.isPut = false) := by
  refine ⟨?_, ?_, ?_⟩
  · intro published s s1 res hres
    by_cases hb : res.Body = []
    · rw [if_pos hb, if_pos hb, checkCurrentIP_empty W c published s s1 res hres hb, hb]
      exact ⟨sliceTo_nil, rfl⟩
    · rw [if_neg hb, if_neg hb]
      refine ⟨sliceTo_dropLast res.Body hb, ?_⟩
      have hsnoc : res.Body = res.Body.dropLast ++ [res.Body.getLast hb] :=
        (List.dropLast_append_getLast hb).symm
      exact checkCurrentIP_snoc W c published s s1 res _ _ hres hsnoc
  · intro published s
    rcases hres : W.httpGet s c.IP_RESOLVER_URL with ⟨_ | res, s1⟩
    · rw [checkCurrentIP_none W c published s s1 hres]
      simp
    · by_cases hb : res.Body = []
      · rw [checkCurrentIP_empty W c published s s1 res hres hb]
        simp [hb]
      · have hsnoc : res.Body = res.Body.dropLast ++ [res.Body.getLast hb] :=
          (List.dropLast_append_getLast hb).symm
        rw [checkCurrentIP_snoc W c published s s1 res _ _ hres hsnoc]
        simp [hb]
  · intro pre post sub u s0 s1 s2 g r e es v vs hsub hpre hurl hget hdec hval hres hbody
    have hb := body_emptyBody W L c url sub u _ s1 s2 g r e es v vs hurl hget hdec hval hres
      hbody
    refine ⟨run_reaches_panic W L c url pre post sub s0 s2 _ hsub hpre hb, ?_⟩
    rw [hb]
    intro ev hev
    simp only [List.mem_cons, List.mem_singleton, List.not_mem_nil, or_false] at hev
    rcases hev with rfl | rfl
    · simp [Event.isPut, readRequest, get_ne_put]
    · rfl

/-- C10 for a resolver that answers with an empty body: `checkCurrentIP`
panics, and the run panics at `www` after the resolver call without a PUT. -/
theorem checkCurrentIP_result_iff_nonempty_witness :
    checkCurrentIP emptyReplyWorld demoConfig (str "198.51.100.9") () =
        ⟨.panic, (), [.httpGet demoConfig.IP_RESOLVER_URL (some ⟨200, []⟩)]⟩ ∧
      updateRecords emptyReplyWorld demoLib demoConfig demoConfig.URL () =
        ⟨.panic, (),
          [.clientDo (readRequest demoConfig (demoURL (str "www"))) (some ⟨200, wwwBody⟩),
           .httpGet demoConfig.IP_RESOLVER_URL (some ⟨200, []⟩)]⟩ :=
  have h := checkCurrentIP_result_iff_nonempty emptyReplyWorld demoLib demoConfig
    demoConfig.URL
  ⟨(h.1 (str "198.51.100.9") () () ⟨200, []⟩ (by decide)).2,
    (h.2.2 [] [str "api"] (str "www") (demoURL (str "www")) () () () ⟨200, wwwBody⟩ ⟨200, []⟩ wwwEntry []
      (str "198.51.100.9") [] (by decide) (by decide) (by decide) (by decide) (by decide)
      (by decide) (by decide) (by decide)).1⟩

end DdnsGandi
